import Mathlib

/-!
HDMI CEC driver (`drivers/video/sunxi/disp2/hdmi/hdmi_cec.c`)

A shallow embedding of the character-device driver: the driver's variables are
one record `Dev`, every file operation and the deferred status handler is a
function on that record.  The mutex and the spinlock are not modelled: each
function below runs as one atomic step, and what other contexts do while a
caller sleeps is an explicit argument of the sleeping function.  Where the
source releases the mutex in the middle of a function and the order of two
callers matters, the function is also given by its critical sections
(`hdmi_cec_write_check`, `hdmi_cec_write_load`).

The register port is opaque.  A read returns what the hardware currently
shows (`Dev.hw`), a write is appended to the chronological list `Dev.port`.
-/

namespace HdmiCec

/-! ## Constants of hdmi_cec.c -/

def MAX_MESSAGE_LEN : Nat := 17

def MESSAGE_TYPE_RECEIVE_SUCCESS : Int := 1
def MESSAGE_TYPE_NOACK : Int := 2
def MESSAGE_TYPE_DISCONNECTED : Int := 3
def MESSAGE_TYPE_CONNECTED : Int := 4
def MESSAGE_TYPE_SEND_SUCCESS : Int := 5

def CEC_TX_INPROGRESS : Int := -1
def CEC_TX_AVAIL : Int := 0

def NACK_RETRY_COUNT : Int := 1
def FAIL_RETRY_COUNT : Int := 2

def HDMI_CEC_PHY : Nat := 0x1003c

/-! ## Kernel constants used by the file -/

/-- Error numbers of the kernel's errno headers (returned negated). -/
def EIO : Int := 5
def EAGAIN : Int := 11
def EACCES : Int := 13
def EFAULT : Int := 14
def EBUSY : Int := 16
def ENODEV : Int := 19
def EINVAL : Int := 22
def ERESTARTSYS : Int := 512

/-- Poll bits of the kernel's poll header. -/
def POLLIN : Nat := 0x0001
def POLLOUT : Nat := 0x0004
def POLLRDNORM : Nat := 0x0040
def POLLWRNORM : Nat := 0x0100

def NOTIFY_DONE : Int := 0

/-- The macros that hdmi_cec.c takes from dw_hdmi.h and hdmi_cec.h and whose
values are not part of the file: the bits of the CEC interrupt status
register, the CEC clock-disable bit, and the number of bytes a read hands to
the caller, `sizeof(struct hdmi_cec_event) - sizeof(struct list_head)`.
The driver is a function of these. -/
structure Hdr where
  HDMI_IH_CEC_STAT0_WAKEUP : Nat
  HDMI_IH_CEC_STAT0_ERROR_FOLL : Nat
  HDMI_IH_CEC_STAT0_ERROR_INIT : Nat
  HDMI_IH_CEC_STAT0_ARB_LOST : Nat
  HDMI_IH_CEC_STAT0_NACK : Nat
  HDMI_IH_CEC_STAT0_EOM : Nat
  HDMI_IH_CEC_STAT0_DONE : Nat
  HDMI_MC_CLKDIS_CECCLK_DISABLE : Nat
  event_size : Nat
deriving DecidableEq, Repr

/-- The values the DesignWare HDMI register header gives these macros, with
the 64-bit size of the event record; used where a concrete header is needed. -/
def dw_hdmi : Hdr where
  HDMI_IH_CEC_STAT0_WAKEUP := 0x40
  HDMI_IH_CEC_STAT0_ERROR_FOLL := 0x20
  HDMI_IH_CEC_STAT0_ERROR_INIT := 0x10
  HDMI_IH_CEC_STAT0_ARB_LOST := 0x08
  HDMI_IH_CEC_STAT0_NACK := 0x04
  HDMI_IH_CEC_STAT0_EOM := 0x02
  HDMI_IH_CEC_STAT0_DONE := 0x01
  HDMI_MC_CLKDIS_CECCLK_DISABLE := 0x20
  event_size := 32

/-- The ioctl numbers of hdmi_cec.h, kept symbolic: the `switch` in
`hdmi_cec_ioctl` only tells them apart. -/
inductive IoctlCmd where
  | HDMICEC_IOC_SETLOGICALADDRESS
  | HDMICEC_IOC_STARTDEVICE
  | HDMICEC_IOC_STOPDEVICE
  | HDMICEC_IOC_GETPHYADDRESS
  | unknown (cmd : Nat)
deriving DecidableEq, Repr

/-! ## Machine integers -/

/-- The 32-bit two's-complement pattern of a C `int`. -/
def u32 (a : Int) : Nat := (a % 4294967296).toNat

/-- The bit pattern of `a & b` on C `int`s; it is `0` exactly when the C
expression is false. -/
def int_and (a b : Int) : Nat := Nat.land (u32 a) (u32 b)

/-! ## Register port -/

/-- Register addresses.  Only `HDMI_CEC_PHY` and the read-unlock word are
given by number in the file (`raw`); the others are macros of dw_hdmi.h and
stay symbolic.  `past_tx_reg i` and `past_rx_reg i` stand for whatever `int`
is found at index `i` beyond the end of the 16-entry tables. -/
inductive Reg where
  | raw (addr : Nat)
  | HDMI_CEC_CTRL
  | HDMI_CEC_TX_CNT
  | HDMI_CEC_RX_CNT
  | HDMI_CEC_LOCK
  | HDMI_CEC_ADDR_L
  | HDMI_CEC_ADDR_H
  | HDMI_CEC_MASK
  | HDMI_CEC_POLARITY
  | HDMI_IH_MUTE_CEC_STAT0
  | HDMI_IH_CEC_STAT0
  | HDMI_MC_CLKDIS
  | HDMI_PHY_STAT0
  | HDMI_CEC_TX_DATA (i : Nat)
  | HDMI_CEC_RX_DATA (i : Nat)
  | past_tx_reg (i : Nat)
  | past_rx_reg (i : Nat)
deriving DecidableEq, Repr

/-- One write on the register port. -/
inductive PortOp where
  | writeb (value : Nat) (reg : Reg)
  | writel (value : Nat) (reg : Reg)
deriving DecidableEq, Repr

/-- The table `tx_reg[16]`. -/
def tx_reg : List Reg :=
  [Reg.HDMI_CEC_TX_DATA 0, Reg.HDMI_CEC_TX_DATA 1, Reg.HDMI_CEC_TX_DATA 2,
   Reg.HDMI_CEC_TX_DATA 3, Reg.HDMI_CEC_TX_DATA 4, Reg.HDMI_CEC_TX_DATA 5,
   Reg.HDMI_CEC_TX_DATA 6, Reg.HDMI_CEC_TX_DATA 7, Reg.HDMI_CEC_TX_DATA 8,
   Reg.HDMI_CEC_TX_DATA 9, Reg.HDMI_CEC_TX_DATA 10, Reg.HDMI_CEC_TX_DATA 11,
   Reg.HDMI_CEC_TX_DATA 12, Reg.HDMI_CEC_TX_DATA 13, Reg.HDMI_CEC_TX_DATA 14,
   Reg.HDMI_CEC_TX_DATA 15]

/-- The table `rx_reg[16]`. -/
def rx_reg : List Reg :=
  [Reg.HDMI_CEC_RX_DATA 0, Reg.HDMI_CEC_RX_DATA 1, Reg.HDMI_CEC_RX_DATA 2,
   Reg.HDMI_CEC_RX_DATA 3, Reg.HDMI_CEC_RX_DATA 4, Reg.HDMI_CEC_RX_DATA 5,
   Reg.HDMI_CEC_RX_DATA 6, Reg.HDMI_CEC_RX_DATA 7, Reg.HDMI_CEC_RX_DATA 8,
   Reg.HDMI_CEC_RX_DATA 9, Reg.HDMI_CEC_RX_DATA 10, Reg.HDMI_CEC_RX_DATA 11,
   Reg.HDMI_CEC_RX_DATA 12, Reg.HDMI_CEC_RX_DATA 13, Reg.HDMI_CEC_RX_DATA 14,
   Reg.HDMI_CEC_RX_DATA 15]

/-- The C expression `tx_reg[i]`: the table entry, or the word past the table. -/
def tx_reg_at (i : Nat) : Reg := (tx_reg.get? i).getD (Reg.past_tx_reg i)

/-- The C expression `rx_reg[i]`. -/
def rx_reg_at (i : Nat) : Reg := (rx_reg.get? i).getD (Reg.past_rx_reg i)

/-! ## Data model -/

/-- `struct hdmi_cec_event` without its list link. -/
structure hdmi_cec_event where
  event_type : Int
  msg_len : Int
  msg : List Nat
deriving DecidableEq, Repr

/-- `struct hdmi_cec_priv` without the irq number, the locks and the work item. -/
structure hdmi_cec_priv where
  receive_error : Int
  sent_error : Int
  Logical_address : Nat
  cec_state : Bool
  latest_cec_stat : Int
  last_msg : List Nat
  msg_len : Nat
  tx_answer : Int
  link_status : Nat

/-- The file-scope variables of hdmi_cec.c together with the register port. -/
structure Dev where
  hdmi_cec_data : hdmi_cec_priv
  head : List hdmi_cec_event
  open_count : Nat
  cec_l_addr_l : Nat
  cec_l_addr_h : Nat
  rxack_task : Bool
  last_signal : Int
  last_signal_tick : Nat
  hw : Reg → Nat
  port : List PortOp

/-- A zeroed event, as left by `memset(event, 0, sizeof(struct hdmi_cec_event))`. -/
def zero_event : hdmi_cec_event :=
  { event_type := 0, msg_len := 0, msg := List.replicate MAX_MESSAGE_LEN 0 }

/-- The variables when `hdmi_cec_init` has returned: the static initialisers,
`Logical_address = 15`, `tx_answer = CEC_TX_AVAIL`, an empty list; the port
history starts here. -/
def boot (hw : Reg → Nat) : Dev where
  hdmi_cec_data :=
    { receive_error := 0, sent_error := 0, Logical_address := 15, cec_state := false,
      latest_cec_stat := 0, last_msg := List.replicate MAX_MESSAGE_LEN 0, msg_len := 0,
      tx_answer := CEC_TX_AVAIL, link_status := 0 }
  head := []
  open_count := 0
  cec_l_addr_l := 0
  cec_l_addr_h := 0
  rxack_task := false
  last_signal := -1
  last_signal_tick := 0
  hw := hw
  port := []

/-! ## Register access primitives -/

def hdmi_writel (value : Nat) (reg : Reg) (s : Dev) : Dev :=
  { s with port := s.port ++ [PortOp.writel (value % 4294967296) reg] }

def hdmi_readl (reg : Reg) (s : Dev) : Nat := s.hw reg % 4294967296

/-- The byte read: the unlock word is written first, then the byte is read. -/
def hdmi_readb (reg : Reg) (s : Dev) : Nat × Dev :=
  let s1 := hdmi_writel 0x54524545 (Reg.raw 0x10010) s
  (s1.hw reg % 256, s1)

def hdmi_writeb (value : Nat) (reg : Reg) (s : Dev) : Dev :=
  { s with port := s.port ++ [PortOp.writeb (value % 256) reg] }

def hdmi_cec_phy (s : Dev) : Nat := hdmi_readl (Reg.raw HDMI_CEC_PHY) s

def set_hdmi_cec_phy (value : Nat) (s : Dev) : Dev := hdmi_writel value (Reg.raw HDMI_CEC_PHY) s

def hdmi_cec_read_reg_bit (s : Dev) : Int := if Nat.land (hdmi_cec_phy s) 0x2 ≠ 0 then 1 else 0

def hdmi_cec_is_receiving (s : Dev) : Nat := Nat.land (hdmi_cec_phy s) 0x4

def set_hdmi_enable_sending (s : Dev) : Dev := set_hdmi_cec_phy 0x0 s

def set_hdmi_enable_receiving (s : Dev) : Dev := set_hdmi_cec_phy 0x84 s

def send_hdmi_bit_0 (s : Dev) : Dev := set_hdmi_cec_phy 0x0 s

/-- The body `list_add_tail(&event->list, &head)`. -/
def list_add_tail (event : hdmi_cec_event) (s : Dev) : Dev :=
  { s with head := s.head ++ [event] }

/-- The three statements `val = hdmi_readb(HDMI_CEC_CTRL); val |= 0x01;
hdmi_writeb(val, HDMI_CEC_CTRL);` that assert the transmit-start bit. -/
def send_frame (s : Dev) : Dev :=
  let (val, s1) := hdmi_readb Reg.HDMI_CEC_CTRL s
  hdmi_writeb (Nat.lor val 0x01) Reg.HDMI_CEC_CTRL s1

/-- The block shared by the `reinit done` notification and by
`HDMICEC_IOC_STARTDEVICE`, up to the two writes of the interrupt masks. -/
def enable_cec (K : Hdr) (s : Dev) : Dev :=
  let (val, s1) := hdmi_readb Reg.HDMI_MC_CLKDIS s
  let val1 := Nat.land val (Nat.xor 255 (K.HDMI_MC_CLKDIS_CECCLK_DISABLE % 256))
  let s2 := hdmi_writeb val1 Reg.HDMI_MC_CLKDIS s1
  let s3 := hdmi_writeb 0x02 Reg.HDMI_CEC_CTRL s2
  let s4 := set_hdmi_enable_receiving s3
  let s5 := hdmi_writeb 0x0 Reg.HDMI_CEC_LOCK s4
  let pol := Nat.lor (Nat.lor (Nat.lor K.HDMI_IH_CEC_STAT0_ERROR_INIT K.HDMI_IH_CEC_STAT0_NACK)
    K.HDMI_IH_CEC_STAT0_EOM) K.HDMI_IH_CEC_STAT0_DONE
  let s6 := hdmi_writeb pol Reg.HDMI_CEC_POLARITY s5
  let msk := Nat.lor (Nat.lor K.HDMI_IH_CEC_STAT0_WAKEUP K.HDMI_IH_CEC_STAT0_ERROR_FOLL)
    K.HDMI_IH_CEC_STAT0_ARB_LOST
  let s7 := hdmi_writeb msk Reg.HDMI_CEC_MASK s6
  hdmi_writeb msk Reg.HDMI_IH_MUTE_CEC_STAT0 s7

/-! ## Link notifier -/

/-- The function `sunxi_hdmi_notify`; `alloc_ok` says whether `vmalloc` returns
memory.  The result `NOTIFY_DONE` is constant and left out. -/
def sunxi_hdmi_notify (K : Hdr) (code : Nat) (alloc_ok : Bool) (s : Dev) : Dev :=
  if s.open_count ≠ 0 then
    if code = 0x00 then
      if alloc_ok then
        list_add_tail { zero_event with event_type := MESSAGE_TYPE_DISCONNECTED } s
      else s
    else if code = 0x04 then
      if alloc_ok then
        list_add_tail { zero_event with event_type := MESSAGE_TYPE_CONNECTED } s
      else s
    else if code = 0x05 then
      let s1 := enable_cec K s
      let s2 := hdmi_writeb s1.cec_l_addr_l Reg.HDMI_CEC_ADDR_L s1
      hdmi_writeb s2.cec_l_addr_h Reg.HDMI_CEC_ADDR_H s2
    else s
  else s

/-! ## Interrupt dispatcher and frame state machine -/

/-- The function `hdmi_cec_isr`: the new state and whether the work item was
scheduled. -/
def hdmi_cec_isr (K : Hdr) (s : Dev) : Dev × Bool :=
  let s1 := hdmi_writeb 0x7f Reg.HDMI_IH_MUTE_CEC_STAT0 s
  let (cec_stat, s2) := hdmi_readb Reg.HDMI_IH_CEC_STAT0 s1
  let s3 := hdmi_writeb cec_stat Reg.HDMI_IH_CEC_STAT0 s2
  let bits := Nat.lor (Nat.lor (Nat.lor K.HDMI_IH_CEC_STAT0_ERROR_INIT K.HDMI_IH_CEC_STAT0_NACK)
    K.HDMI_IH_CEC_STAT0_EOM) K.HDMI_IH_CEC_STAT0_DONE
  if int_and cec_stat bits = 0 then (s3, false)
  else ({ s3 with hdmi_cec_data := { s3.hdmi_cec_data with latest_cec_stat := cec_stat } }, true)

/-- One round of the receive loop: `event->msg[i] = hdmi_readb(rx_reg[i])`.
A store at an index past the 17-byte array does not land in `msg`. -/
def rx_byte (acc : hdmi_cec_event × Dev) (i : Nat) : hdmi_cec_event × Dev :=
  let (b, s1) := hdmi_readb (rx_reg_at i) acc.2
  ({ acc.1 with msg := acc.1.msg.set i b }, s1)

/-- The function `hdmi_cec_handle`; `cec_stat` is the `u16` argument and
`alloc_ok` says whether `vmalloc` returns memory. -/
def hdmi_cec_handle (K : Hdr) (alloc_ok : Bool) (cec_stat : Nat) (s : Dev) : Dev :=
  if int_and cec_stat K.HDMI_IH_CEC_STAT0_DONE ≠ 0 then
    let s1 := set_hdmi_enable_receiving s
    if s1.hdmi_cec_data.tx_answer = CEC_TX_INPROGRESS then
      { s1 with hdmi_cec_data := { s1.hdmi_cec_data with tx_answer := cec_stat } }
    else s1
  else if int_and cec_stat K.HDMI_IH_CEC_STAT0_EOM ≠ 0 then
    if alloc_ok then
      let (n, s1) := hdmi_readb Reg.HDMI_CEC_RX_CNT s
      if n = 0 then s1
      else
        let event : hdmi_cec_event :=
          { zero_event with msg_len := n, event_type := MESSAGE_TYPE_RECEIVE_SUCCESS }
        let (event1, s2) := (List.range n).foldl rx_byte (event, s1)
        let s3 := hdmi_writeb 0x0 Reg.HDMI_CEC_LOCK s2
        if s3.open_count ≠ 0 then list_add_tail event1 s3 else s3
    else s
  else if int_and cec_stat K.HDMI_IH_CEC_STAT0_ERROR_INIT ≠ 0 then
    let old := s.hdmi_cec_data.sent_error
    let s1 := { s with hdmi_cec_data := { s.hdmi_cec_data with sent_error := old + 1 } }
    if old < FAIL_RETRY_COUNT then
      send_frame (set_hdmi_enable_sending s1)
    else if s1.hdmi_cec_data.tx_answer = CEC_TX_INPROGRESS then
      let s2 := set_hdmi_enable_receiving s1
      { s2 with hdmi_cec_data := { s2.hdmi_cec_data with tx_answer := cec_stat } }
    else s1
  else if int_and cec_stat K.HDMI_IH_CEC_STAT0_NACK ≠ 0 then
    let old := s.hdmi_cec_data.sent_error
    let s1 := { s with hdmi_cec_data := { s.hdmi_cec_data with sent_error := old + 1 } }
    if old < NACK_RETRY_COUNT then
      send_frame (set_hdmi_enable_sending s1)
    else if s1.hdmi_cec_data.tx_answer = CEC_TX_INPROGRESS then
      let s2 := set_hdmi_enable_receiving s1
      { s2 with hdmi_cec_data := { s2.hdmi_cec_data with tx_answer := cec_stat } }
    else s1
  else if int_and cec_stat K.HDMI_IH_CEC_STAT0_ERROR_FOLL ≠ 0 then
    { s with hdmi_cec_data :=
        { s.hdmi_cec_data with receive_error := s.hdmi_cec_data.receive_error + 1 } }
  else s

/-- The function `hdmi_cec_worker`: the stored status is narrowed to `u16`. -/
def hdmi_cec_worker (K : Hdr) (alloc_ok : Bool) (s : Dev) : Dev :=
  let s1 := hdmi_cec_handle K alloc_ok (u32 s.hdmi_cec_data.latest_cec_stat % 65536) s
  let val := Nat.lor (Nat.lor K.HDMI_IH_CEC_STAT0_WAKEUP K.HDMI_IH_CEC_STAT0_ERROR_FOLL)
    K.HDMI_IH_CEC_STAT0_ARB_LOST
  hdmi_writeb val Reg.HDMI_IH_MUTE_CEC_STAT0 s1

/-! ## File operations -/

/-- The function `hdmi_cec_open`. -/
def hdmi_cec_open (s : Dev) : Int × Dev :=
  if s.open_count ≠ 0 then (-EBUSY, s)
  else
    (0, { s with
            open_count := 1
            hdmi_cec_data := { s.hdmi_cec_data with Logical_address := 15, cec_state := false } })

/-- The function `hdmi_cec_release`. -/
def hdmi_cec_release (s : Dev) : Int × Dev :=
  if s.open_count ≠ 0 then
    (0, { s with
            open_count := 0
            hdmi_cec_data := { s.hdmi_cec_data with cec_state := false, Logical_address := 15 } })
  else (0, s)

/-- The function `hdmi_cec_poll`. -/
def hdmi_cec_poll (s : Dev) : Nat :=
  let mask := Nat.lor POLLOUT POLLWRNORM
  if s.head ≠ [] then Nat.lor mask (Nat.lor POLLIN POLLRDNORM) else mask

/-- What ends one sleep of a blocked reader in `wait_event_interruptible`: a
signal, or a wake-up after the other contexts have run `during`. -/
inductive Wake where
  | signal
  | woken (during : Dev → Dev)

/-- Where `hdmi_cec_read` stands when it reaches `list_first_entry`: it has
returned an error, it holds the lock with a non-empty list, or it is still
asleep in `wait_event_interruptible`. -/
inductive Entered where
  | failed (ret : Int) (s : Dev)
  | ready (s : Dev)
  | asleep (s : Dev)

/-- The state an `Entered` carries. -/
def Entered.dev : Entered → Dev
  | Entered.failed _ s => s
  | Entered.ready s => s
  | Entered.asleep s => s

/-- The loop `do ... while (list_empty(&head))` of `hdmi_cec_read`, one list
entry per sleep.  When the entries are used up and the list is still empty
the reader is still asleep. -/
def hdmi_cec_read_wait : List Wake → Dev → Entered
  | [], s => Entered.asleep s
  | Wake.signal :: _, s => Entered.failed (-ERESTARTSYS) s
  | Wake.woken during :: rest, s =>
    if (during s).head = [] then hdmi_cec_read_wait rest (during s) else Entered.ready (during s)

/-- The function `hdmi_cec_read` up to `list_first_entry`.  `nonblock` is
`file->f_flags & O_NONBLOCK`, `wakes` is what ends the sleeps of a blocking
call. -/
def hdmi_cec_read_enter (nonblock : Bool) (wakes : List Wake) (s : Dev) : Entered :=
  if s.open_count = 0 then Entered.failed (-ENODEV) s
  else if s.hdmi_cec_data.cec_state = false then Entered.failed (-EACCES) s
  else if s.head = [] then
    if nonblock then Entered.failed (-EAGAIN) s
    else hdmi_cec_read_wait wakes s
  else Entered.ready s

/-- What a call of `hdmi_cec_read` yields: the returned value, the event
copied to the caller when the copy succeeded, and the new state. -/
structure ReadOut where
  ret : Int
  event : Option hdmi_cec_event
  dev : Dev

/-- The function `hdmi_cec_read` from `list_first_entry` on; `copy_ok` says
whether `copy_to_user` succeeds.  The list is not empty when this point is
reached; the first case is only there to make the function total. -/
def hdmi_cec_read_take (K : Hdr) (copy_ok : Bool) (s : Dev) : ReadOut :=
  match s.head with
  | [] => { ret := -EFAULT, event := none, dev := s }
  | event :: rest =>
    let s1 := { s with head := rest }
    if copy_ok then { ret := K.event_size, event := some event, dev := s1 }
    else { ret := -EFAULT, event := none, dev := s1 }

/-- The function `hdmi_cec_read`; `none` while the caller is still asleep. -/
def hdmi_cec_read (K : Hdr) (nonblock copy_ok : Bool) (wakes : List Wake) (s : Dev) :
    Option ReadOut :=
  match hdmi_cec_read_enter nonblock wakes s with
  | Entered.failed ret s1 => some { ret := ret, event := none, dev := s1 }
  | Entered.asleep _ => none
  | Entered.ready s1 => some (hdmi_cec_read_take K copy_ok s1)

/-- The kernel copy `copy_from_user(&msg, buf, count)`: the caller's memory
is the byte list `buf`, and the copy faults when it is shorter than `count`. -/
def copy_from_user (buf : List Nat) (count : Nat) : Option (List Nat) :=
  if count ≤ buf.length then some ((buf.take count).map (fun b => b % 256)) else none

/-- The label `tx_out` of `hdmi_cec_write`. -/
def tx_out (s : Dev) : Dev :=
  { s with hdmi_cec_data := { s.hdmi_cec_data with tx_answer := CEC_TX_AVAIL } }

/-- One round of the staging loop: `hdmi_writeb(msg[i], tx_reg[i])`. -/
def tx_byte (msg : List Nat) (s : Dev) (i : Nat) : Dev :=
  hdmi_writeb (msg.getD i 0) (tx_reg_at i) s

/-- Where `hdmi_cec_write` stands when it reaches its wait: it has returned,
or it sleeps on `tx_cec_queue` with the local `msg_len`. -/
inductive Staged where
  | returned (ret : Int) (s : Dev)
  | waiting (msg_len : Nat) (s : Dev)

/-- The function `hdmi_cec_write` up to `wait_event_interruptible_timeout`;
`now` is `cur_in_usecs`. -/
def hdmi_cec_write_stage (s : Dev) (count : Nat) (buf : List Nat) (now : Int) : Staged :=
  if s.open_count = 0 then Staged.returned (-ENODEV) s
  else if s.hdmi_cec_data.cec_state = false then Staged.returned (-EACCES) s
  else if s.hdmi_cec_data.tx_answer ≠ CEC_TX_AVAIL then Staged.returned (-EBUSY) s
  else if count > MAX_MESSAGE_LEN then Staged.returned (-EINVAL) s
  else
    match copy_from_user buf count with
    | none => Staged.returned (-EACCES) s
    | some bytes =>
      let msg := bytes ++ List.replicate (MAX_MESSAGE_LEN - count) 0
      if now - (s.last_signal_tick : Int) < 5000 ∧ s.last_signal > 0 then
        Staged.returned (-EBUSY) (tx_out s)
      else
        let s1 := (hdmi_readb Reg.HDMI_CEC_LOCK s).2
        let s2 := { s1 with hdmi_cec_data :=
          { s1.hdmi_cec_data with tx_answer := CEC_TX_INPROGRESS, sent_error := 0 } }
        let msg_len := count % 256
        let s3 := hdmi_writeb msg_len Reg.HDMI_CEC_TX_CNT s2
        let s4 := (List.range msg_len).foldl (tx_byte msg) s3
        let s5 := send_frame s4
        let s6 := { s5 with hdmi_cec_data :=
          { s5.hdmi_cec_data with
            last_msg := msg.take msg_len ++ s5.hdmi_cec_data.last_msg.drop msg_len
            msg_len := msg_len } }
        Staged.waiting msg_len s6

/-- The function `hdmi_cec_write` after the wait; `ret` is the value of
`wait_event_interruptible_timeout(tx_cec_queue, ..., HZ)`. -/
def hdmi_cec_write_finish (K : Hdr) (msg_len : Nat) (ret : Int) (s : Dev) : Int × Dev :=
  let ret1 : Int :=
    if ret < 0 then -ERESTARTSYS
    else if int_and s.hdmi_cec_data.tx_answer K.HDMI_IH_CEC_STAT0_DONE ≠ 0 then msg_len
    else - EIO
  (ret1, tx_out s)

/-- The function `hdmi_cec_write`.  While the caller sleeps the other
contexts run `during`; `ret` is the value the wait then yields. -/
def hdmi_cec_write (K : Hdr) (s : Dev) (count : Nat) (buf : List Nat) (now : Int)
    (during : Dev → Dev) (ret : Int) : Int × Dev :=
  match hdmi_cec_write_stage s count buf now with
  | Staged.returned r s1 => (r, s1)
  | Staged.waiting msg_len s1 => hdmi_cec_write_finish K msg_len ret (during s1)

/-- The first critical section of `hdmi_cec_write`, from its entry to the
`mutex_unlock` that follows the test of the marker: `some ret` when the call
returns there, `none` when the session is attached, started and the marker
is CEC_TX_AVAIL.  The state is not changed. -/
def hdmi_cec_write_check (s : Dev) : Option Int :=
  if s.open_count = 0 then some (-ENODEV)
  else if s.hdmi_cec_data.cec_state = false then some (-EACCES)
  else if s.hdmi_cec_data.tx_answer ≠ CEC_TX_AVAIL then some (-EBUSY)
  else none

/-- The rest of `hdmi_cec_write` up to the wait, from the length test on: it
runs after the mutex has been released and taken again, in the state `s` the
other contexts have left by then, and does not test the marker again. -/
def hdmi_cec_write_load (s : Dev) (count : Nat) (buf : List Nat) (now : Int) : Staged :=
  if count > MAX_MESSAGE_LEN then Staged.returned (-EINVAL) s
  else
    match copy_from_user buf count with
    | none => Staged.returned (-EACCES) s
    | some bytes =>
      let msg := bytes ++ List.replicate (MAX_MESSAGE_LEN - count) 0
      if now - (s.last_signal_tick : Int) < 5000 ∧ s.last_signal > 0 then
        Staged.returned (-EBUSY) (tx_out s)
      else
        let s1 := (hdmi_readb Reg.HDMI_CEC_LOCK s).2
        let s2 := { s1 with hdmi_cec_data :=
          { s1.hdmi_cec_data with tx_answer := CEC_TX_INPROGRESS, sent_error := 0 } }
        let msg_len := count % 256
        let s3 := hdmi_writeb msg_len Reg.HDMI_CEC_TX_CNT s2
        let s4 := (List.range msg_len).foldl (tx_byte msg) s3
        let s5 := send_frame s4
        let s6 := { s5 with hdmi_cec_data :=
          { s5.hdmi_cec_data with
            last_msg := msg.take msg_len ++ s5.hdmi_cec_data.last_msg.drop msg_len
            msg_len := msg_len } }
        Staged.waiting msg_len s6

/-- The function `hdmi_stop_device`. -/
def hdmi_stop_device (K : Hdr) (s : Dev) : Dev :=
  let s1 := hdmi_writeb 0x10 Reg.HDMI_CEC_CTRL s
  let val := Nat.lor (Nat.lor (Nat.lor (Nat.lor (Nat.lor (Nat.lor K.HDMI_IH_CEC_STAT0_WAKEUP
    K.HDMI_IH_CEC_STAT0_ERROR_FOLL) K.HDMI_IH_CEC_STAT0_ERROR_INIT) K.HDMI_IH_CEC_STAT0_ARB_LOST)
    K.HDMI_IH_CEC_STAT0_NACK) K.HDMI_IH_CEC_STAT0_EOM) K.HDMI_IH_CEC_STAT0_DONE
  let s2 := hdmi_writeb val Reg.HDMI_CEC_MASK s1
  let s3 := hdmi_writeb val Reg.HDMI_IH_MUTE_CEC_STAT0 s2
  let s4 := hdmi_writeb 0x0 Reg.HDMI_CEC_POLARITY s3
  let (clk, s5) := hdmi_readb Reg.HDMI_MC_CLKDIS s4
  let s6 := hdmi_writeb (Nat.lor clk K.HDMI_MC_CLKDIS_CECCLK_DISABLE) Reg.HDMI_MC_CLKDIS s5
  { s6 with
      hdmi_cec_data := { s6.hdmi_cec_data with cec_state := false }
      rxack_task := false }

/-- The function `hdmi_cec_ioctl`; `arg` is the `u_long` argument and
`copy_ok` says whether `copy_to_user` of the physical address succeeds. -/
def hdmi_cec_ioctl (K : Hdr) (cmd : IoctlCmd) (arg : Nat) (copy_ok : Bool) (s : Dev) :
    Int × Dev :=
  if s.open_count = 0 then (-ENODEV, s)
  else
    match cmd with
    | IoctlCmd.HDMICEC_IOC_SETLOGICALADDRESS =>
      if s.hdmi_cec_data.cec_state = false then (-EACCES, s)
      else
        let la := arg % 256
        let s1 := { s with hdmi_cec_data := { s.hdmi_cec_data with Logical_address := la } }
        if la ≤ 7 then
          let s2 := { s1 with cec_l_addr_l := (1 <<< la) % 256, cec_l_addr_h := 0 }
          let s3 := hdmi_writeb s2.cec_l_addr_l Reg.HDMI_CEC_ADDR_L s2
          (0, hdmi_writeb s3.cec_l_addr_h Reg.HDMI_CEC_ADDR_H s3)
        else if la > 7 ∧ la ≤ 15 then
          let s2 := { s1 with cec_l_addr_l := 0, cec_l_addr_h := (1 <<< (la - 8)) % 256 }
          let s3 := hdmi_writeb s2.cec_l_addr_l Reg.HDMI_CEC_ADDR_L s2
          (0, hdmi_writeb s3.cec_l_addr_h Reg.HDMI_CEC_ADDR_H s3)
        else (-EINVAL, s1)
    | IoctlCmd.HDMICEC_IOC_STARTDEVICE =>
      let s1 := enable_cec K s
      let (phy, s2) := hdmi_readb Reg.HDMI_PHY_STAT0 s1
      let s3 := { s2 with
        hdmi_cec_data :=
          { s2.hdmi_cec_data with link_status := Nat.land phy 0x02, cec_state := true }
        rxack_task := true }
      (0, s3)
    | IoctlCmd.HDMICEC_IOC_STOPDEVICE => (0, hdmi_stop_device K s)
    | IoctlCmd.HDMICEC_IOC_GETPHYADDRESS => if copy_ok then (0, s) else (-EFAULT, s)
    | IoctlCmd.unknown _ => (-EINVAL, s)

/-- The state a `Staged` carries. -/
def Staged.dev : Staged → Dev
  | Staged.returned _ s => s
  | Staged.waiting _ s => s

/-! ## Schedules of producers and readers -/

/-- A step of a context that produces events or changes what the hardware
shows: the link notifier, the status handler, the hardware itself. -/
inductive Producer where
  | notify (code : Nat) (alloc_ok : Bool)
  | handle (cec_stat : Nat) (alloc_ok : Bool)
  | hardware (hw : Reg → Nat)

/-- Run one producer step. -/
def Producer.run (K : Hdr) : Producer → Dev → Dev
  | Producer.notify code alloc_ok, s => sunxi_hdmi_notify K code alloc_ok s
  | Producer.handle cec_stat alloc_ok, s => hdmi_cec_handle K alloc_ok cec_stat s
  | Producer.hardware hw, s => { s with hw := hw }

/-- Run producer steps one after the other. -/
def produce (K : Hdr) (ps : List Producer) (s : Dev) : Dev :=
  ps.foldl (fun acc p => p.run K acc) s

/-- One sleep of a reader in a schedule: `none` is a signal, `some ps` a
wake-up after the producer steps `ps`. -/
def wake_of (K : Hdr) : Option (List Producer) → Wake
  | none => Wake.signal
  | some ps => Wake.woken (produce K ps)

/-- One entry of a schedule: a producer step, a control call, or a call of
`hdmi_cec_read` with what happens during its sleeps. -/
inductive Op where
  | produce (p : Producer)
  | ioctl (cmd : IoctlCmd) (arg : Nat) (copy_ok : Bool)
  | read (nonblock copy_ok : Bool) (wakes : List (Option (List Producer)))

/-- The bytes the receive loop of `hdmi_cec_handle` leaves in `msg` for a
count of `n`: starting from the zeroed array, byte `i` becomes what receive
register `rx_reg[i]` shows, for `i` below `n`. -/
def rx_msg (hw : Reg → Nat) (n : Nat) : List Nat :=
  (List.range n).foldl (fun m i => m.set i (hw (rx_reg_at i) % 256))
    (List.replicate MAX_MESSAGE_LEN 0)

/-- The events a producer step builds and passes to `list_add_tail`, read off
the source without looking at the queue: the notifier builds a disconnect
event for the code 0x00 and a connect event for the code 0x04, on an attached
session and when `vmalloc` returns memory; the status handler builds a
received-message event in its end-of-message branch, when `vmalloc` returns
memory, the count register is not zero and a session is attached. -/
def Producer.emits (K : Hdr) : Producer → Dev → List hdmi_cec_event
  | Producer.notify code alloc_ok, s =>
    if s.open_count ≠ 0 ∧ alloc_ok = true then
      if code = 0x00 then [{ zero_event with event_type := MESSAGE_TYPE_DISCONNECTED }]
      else if code = 0x04 then [{ zero_event with event_type := MESSAGE_TYPE_CONNECTED }]
      else []
    else []
  | Producer.handle cec_stat alloc_ok, s =>
    if int_and cec_stat K.HDMI_IH_CEC_STAT0_DONE = 0 ∧
        int_and cec_stat K.HDMI_IH_CEC_STAT0_EOM ≠ 0 ∧ alloc_ok = true ∧
        s.hw Reg.HDMI_CEC_RX_CNT % 256 ≠ 0 ∧ s.open_count ≠ 0 then
      [{ event_type := MESSAGE_TYPE_RECEIVE_SUCCESS
         msg_len := (s.hw Reg.HDMI_CEC_RX_CNT % 256 : Nat)
         msg := rx_msg s.hw (s.hw Reg.HDMI_CEC_RX_CNT % 256) }]
    else []
  | Producer.hardware _, _ => []

/-- The events built by producer steps that run one after the other. -/
def emitted (K : Hdr) : List Producer → Dev → List hdmi_cec_event
  | [], _ => []
  | p :: ps, s => p.emits K s ++ emitted K ps (p.run K s)

/-- The producer steps that run while a reader sleeps in the loop of
`hdmi_cec_read`: those of each wake-up, up to the first signal or the first
wake-up that finds the list not empty. -/
def ran_asleep (K : Hdr) : List (Option (List Producer)) → Dev → List Producer
  | [], _ => []
  | none :: _, _ => []
  | some ps :: rest, s =>
    ps ++ (if (produce K ps s).head = [] then ran_asleep K rest (produce K ps s) else [])

/-- The producer steps that run during a call of `hdmi_cec_read`: none unless
the call goes to sleep, which it does on an attached, started session with an
empty list when it is a blocking call. -/
def read_ran (K : Hdr) (nonblock : Bool) (wakes : List (Option (List Producer))) (s : Dev) :
    List Producer :=
  if s.open_count ≠ 0 ∧ s.hdmi_cec_data.cec_state = true ∧ s.head = [] ∧ nonblock = false then
    ran_asleep K wakes s
  else []

/-- One returned call of `hdmi_cec_read` in a schedule: its value, the event
handed to the caller, and the events it took off the queue. -/
structure Took where
  ret : Int
  event : Option hdmi_cec_event
  taken : List hdmi_cec_event

/-- What a schedule has done: the state reached, the events the producers
built and passed to `list_add_tail`, and the calls of `hdmi_cec_read` that
returned, both in order. -/
structure Trace where
  dev : Dev
  appended : List hdmi_cec_event
  reads : List Took

/-- The events a returned call of `hdmi_cec_read` took off the queue: the
event it handed over, or, when it returned -EFAULT, the oldest entry of the
queue `queue` it found when it stopped sleeping. -/
def took (out : ReadOut) (queue : List hdmi_cec_event) : Took :=
  { ret := out.ret
    event := out.event
    taken :=
      match out.event with
      | some ev => [ev]
      | none => if out.ret = -EFAULT then queue.take 1 else [] }

/-- One entry of a schedule. -/
def step (K : Hdr) (op : Op) (s : Dev) : Trace :=
  match op with
  | Op.produce p => { dev := p.run K s, appended := p.emits K s, reads := [] }
  | Op.ioctl cmd arg copy_ok =>
    { dev := (hdmi_cec_ioctl K cmd arg copy_ok s).2, appended := [], reads := [] }
  | Op.read nonblock copy_ok wakes =>
    let e := hdmi_cec_read_enter nonblock (wakes.map (wake_of K)) s
    let app := emitted K (read_ran K nonblock wakes s) s
    match hdmi_cec_read K nonblock copy_ok (wakes.map (wake_of K)) s with
    | none => { dev := e.dev, appended := app, reads := [] }
    | some out => { dev := out.dev, appended := app, reads := [took out e.dev.head] }

/-- A whole schedule. -/
def run (K : Hdr) : List Op → Dev → Trace
  | [], s => { dev := s, appended := [], reads := [] }
  | op :: ops, s =>
    let t := step K op s
    let r := run K ops t.dev
    { dev := r.dev, appended := t.appended ++ r.appended, reads := t.reads ++ r.reads }

/-- The three ways a call of `hdmi_cec_read` can return: with the event it
took and the size of an event as its value; with -EFAULT, having taken one
event that it hands to nobody; or with another negative value, having taken
nothing. -/
def Took.lawful (K : Hdr) (x : Took) : Prop :=
  (∃ ev, x.event = some ev ∧ x.taken = [ev] ∧ x.ret = (K.event_size : Int)) ∨
  (∃ ev, x.event = none ∧ x.taken = [ev] ∧ x.ret = -EFAULT) ∨
  (x.event = none ∧ x.taken = [] ∧ x.ret < 0 ∧ x.ret ≠ -EFAULT)

/-! ## Classes of status and derived observations -/

/-- The status makes `hdmi_cec_handle` take its not-acknowledged branch. -/
def isTxNack (K : Hdr) (cec_stat : Nat) : Prop :=
  int_and cec_stat K.HDMI_IH_CEC_STAT0_DONE = 0 ∧ int_and cec_stat K.HDMI_IH_CEC_STAT0_EOM = 0 ∧
  int_and cec_stat K.HDMI_IH_CEC_STAT0_ERROR_INIT = 0 ∧
  int_and cec_stat K.HDMI_IH_CEC_STAT0_NACK ≠ 0

/-- The status makes `hdmi_cec_handle` take its error-on-initiate branch. -/
def isTxError (K : Hdr) (cec_stat : Nat) : Prop :=
  int_and cec_stat K.HDMI_IH_CEC_STAT0_DONE = 0 ∧ int_and cec_stat K.HDMI_IH_CEC_STAT0_EOM = 0 ∧
  int_and cec_stat K.HDMI_IH_CEC_STAT0_ERROR_INIT ≠ 0

instance (K : Hdr) (cec_stat : Nat) : Decidable (isTxNack K cec_stat) := by
  unfold isTxNack; infer_instance

instance (K : Hdr) (cec_stat : Nat) : Decidable (isTxError K cec_stat) := by
  unfold isTxError; infer_instance

/-- Whether a port write asserts the transmit-start bit of `HDMI_CEC_CTRL`. -/
def PortOp.starts_tx : PortOp → Bool
  | PortOp.writeb value Reg.HDMI_CEC_CTRL => Nat.land value 0x01 ≠ 0
  | _ => false

/-- How often the port history asserts the transmit-start bit. -/
def tx_starts (port : List PortOp) : Nat := (port.filter PortOp.starts_tx).length

/-- The line-busy test of `hdmi_cec_write`. -/
def line_busy (s : Dev) (now : Int) : Prop :=
  now - (s.last_signal_tick : Int) < 5000 ∧ s.last_signal > 0

instance (s : Dev) (now : Int) : Decidable (line_busy s now) := by
  unfold line_busy; infer_instance

/-! ## Bit-timing sampler -/

/-- The sampler thread: the driver variables, the part `buffer[0 ..
buffer_index)` of its trace buffer, and what the thread will observe, as
three streams consumed in order: the values of `cur_in_usecs`, what the port
shows each time the line is read, the values of `kthread_should_stop()`.
The trace buffer of 10000 characters is taken to be long enough. -/
structure Rxack where
  dev : Dev
  buffer : List Char
  clock : List Int
  line : List (Reg → Nat)
  stop : List Bool

/-- A C `int` narrowed from a 64-bit value. -/
def to_int (x : Int) : Int :=
  if x % 4294967296 < 2147483648 then x % 4294967296 else x % 4294967296 - 4294967296

/-- The statement `buffer[buffer_index++] = c`. -/
def put (c : Char) (r : Rxack) : Rxack := { r with buffer := r.buffer ++ [c] }

/-- The expression `cur_in_usecs`: the next value of the clock. -/
def cur_in_usecs (r : Rxack) : Option (Int × Rxack) :=
  match r.clock with
  | [] => none
  | t :: clock => some (t, { r with clock := clock })

/-- The call `hdmi_cec_read_reg_bit()` in the thread: the port shows its next
snapshot. -/
def read_line (r : Rxack) : Option (Int × Rxack) :=
  match r.line with
  | [] => none
  | hw :: line =>
    let dev := { r.dev with hw := hw }
    some (hdmi_cec_read_reg_bit dev, { r with line := line, dev := dev })

/-- The call `kthread_should_stop()`. -/
def kthread_should_stop (r : Rxack) : Option (Bool × Rxack) :=
  match r.stop with
  | [] => none
  | b :: stop => some (b, { r with stop := stop })

/-- The `for (;;)` loop of `wait_for_signal_interval`, one unit of fuel per
pass; `none` when the observations are used up before the loop ends. -/
def wait_for_signal_loop (signal timeout : Int) (start : Nat) : Nat → Rxack → Option (Int × Rxack)
  | 0, _ => none
  | fuel + 1, r => do
    let (current_signal, r1) ← read_line r
    let r2 ←
      if r1.dev.last_signal ≠ current_signal then do
        let (t, r11) ← cur_in_usecs r1
        pure { r11 with dev :=
          { r11.dev with last_signal := current_signal, last_signal_tick := u32 t } }
      else pure r1
    let (t, r3) ← cur_in_usecs r2
    if current_signal = signal then pure (to_int (t - (start : Int)), r3)
    else if t - (start : Int) > timeout then pure (-1, r3)
    else do
      let (b, r4) ← kthread_should_stop r3
      if b then pure (-1, r4) else wait_for_signal_loop signal timeout start fuel r4

/-- The function `wait_for_signal_interval`; every pass of its loop reads the
line once, so the length of the line stream is fuel enough.  The sleep of
`interval` microseconds shows only in the clock. -/
def wait_for_signal_interval (signal _interval timeout : Int) (r : Rxack) :
    Option (Int × Rxack) := do
  let (t, r1) ← cur_in_usecs r
  wait_for_signal_loop signal timeout (u32 t) r1.line.length r1

/-- The function `wait_for_signal`. -/
def wait_for_signal (signal timeout : Int) (r : Rxack) : Option (Int × Rxack) :=
  wait_for_signal_interval signal 100 timeout r

/-- The function `wait_in_state`. -/
def wait_in_state (signal min_time max_time : Int) (r : Rxack) : Option (Int × Rxack) := do
  let (signal_time, r1) ← wait_for_signal (if signal = 0 then 1 else 0) max_time r
  if signal_time < 0 then pure (-1, r1)
  else if signal_time ≥ min_time then pure (signal_time, r1)
  else pure (-1, r1)

/-- The function `wait_for_start_bit`. -/
def wait_for_start_bit (r : Rxack) : Option (Int × Rxack) := do
  let (w, r1) ← wait_for_signal_interval 0 300 5000 r
  if w < 0 then pure (-1, r1)
  else do
    let r2 := put '?' (put 'S' r1)
    let (lo, r3) ← wait_in_state 0 2800 3800 r2
    if lo < 0 then pure (-1, put ' ' (put 'D' r3))
    else do
      let r4 := put '1' r3
      let (hi, r5) ← wait_in_state 1 600 1300 r4
      if hi < 0 then pure (-1, r5)
      else pure (0, put '+' r5)

/-- The function `wait_for_bit`. -/
def wait_for_bit (r : Rxack) : Option (Int × Rxack) := do
  let (lo, r1) ← wait_in_state 0 400 1700 r
  if lo < 0 then pure (-1, r1)
  else do
    let r2 := put 'L' r1
    let (hi, r3) ← wait_in_state 1 700 2400 r2
    if hi < 0 then pure (-1, r3)
    else
      let r4 := put 'H' r3
      if lo < 800 ∧ lo + hi < 2750 then pure (0, put '1' r4)
      else if lo < 1700 ∧ lo + hi < 2750 then pure (0, put '0' r4)
      else pure (0, r4)

/-- The loop of `wait_for_9_bits` from the index `i` on, `todo` passes left. -/
def wait_for_9_bits_from (i : Nat) : Nat → Rxack → Option (Int × Rxack)
  | 0, r => some (0, r)
  | todo + 1, r => do
    let r1 := put (Char.ofNat (48 + i)) (put 'B' r)
    let (b, r2) ← wait_for_bit r1
    if b < 0 then pure (-1, r2)
    else wait_for_9_bits_from (i + 1) todo (put ' ' (put 'A' r2))

/-- The function `wait_for_9_bits`. -/
def wait_for_9_bits (r : Rxack) : Option (Int × Rxack) := wait_for_9_bits_from 0 9 r

/-! ## Concrete states used as examples -/

/-- Hardware that shows zero in every register. -/
def hw0 : Reg → Nat := fun _ => 0

/-- A session that has been attached. -/
def attached_dev : Dev := (hdmi_cec_open (boot hw0)).2

/-- A session that has been attached and started. -/
def started_dev : Dev :=
  (hdmi_cec_ioctl dw_hdmi IoctlCmd.HDMICEC_IOC_STARTDEVICE 0 true attached_dev).2

/-- The started session sleeping in `hdmi_cec_write` on a two-byte frame. -/
def staged_dev : Dev := (hdmi_cec_write_stage started_dev 2 [0x40, 0x04] 0).dev

/-- Hardware that shows a received frame of two bytes, 0x0f and 0x36. -/
def hw_rx2 : Reg → Nat
  | Reg.HDMI_CEC_RX_CNT => 2
  | Reg.HDMI_CEC_RX_DATA 0 => 0x0f
  | Reg.HDMI_CEC_RX_DATA 1 => 0x36
  | _ => 0

/-- A schedule on the started session: a disconnect and a connect arrive, one
event is read, a frame is received, a non-blocking read and then a blocking
read follow, the last one sleeping until a further connect arrives. -/
def demo_ops : List Op :=
  [Op.produce (Producer.notify 0x00 true),
   Op.produce (Producer.notify 0x04 true),
   Op.read true true [],
   Op.produce (Producer.hardware hw_rx2),
   Op.produce (Producer.handle 0x02 true),
   Op.read true true [],
   Op.read false true [],
   Op.read false true [some [Producer.notify 0x04 true]]]

/-- Hardware that shows a receive count of 18. -/
def hw_rx18 : Reg → Nat
  | Reg.HDMI_CEC_RX_CNT => 18
  | _ => 0

/-- Hardware whose interrupt status register shows the not-acknowledged bit. -/
def hw_stat_nack : Reg → Nat
  | Reg.HDMI_IH_CEC_STAT0 => 0x04
  | _ => 0

/-- Hardware whose line bit (bit 1 of the `HDMI_CEC_PHY` word) is low. -/
def hw_low : Reg → Nat := fun _ => 0

/-- Hardware whose line bit is high. -/
def hw_high : Reg → Nat
  | Reg.raw 0x1003c => 0x2
  | _ => 0

/-- The sampler on the started session watching one bit cycle: the line is
low from 0 to 1000 microseconds and then high until 3000. -/
def slow_bit : Rxack where
  dev := started_dev
  buffer := []
  clock := [0, 0, 500, 1000, 1000, 1000, 2000, 3000, 3000]
  line := [hw_low, hw_high, hw_high, hw_low]
  stop := [false, false]

/-- A schedule on the started session: a disconnect and a connect arrive, a
read into a faulting buffer follows, then two reads into a good buffer. -/
def fault_ops : List Op :=
  [Op.produce (Producer.notify 0x00 true),
   Op.produce (Producer.notify 0x04 true),
   Op.read true false [],
   Op.read true true [],
   Op.read true true []]

/-- The sampler of `slow_bit` when the line has gone high. -/
def slow_bit_high : Rxack :=
  ((wait_in_state 0 400 1700 slow_bit).map Prod.snd).getD slow_bit

/-- The sampler of `slow_bit` when the line has gone low again. -/
def slow_bit_done : Rxack :=
  ((wait_in_state 1 700 2400 (put 'L' slow_bit_high)).map Prod.snd).getD slow_bit

end HdmiCec

namespace HdmiCec

/-! ## Frame lemmas: what the port primitives leave alone -/

@[simp] theorem hdmi_writel_data (v : Nat) (r : Reg) (s : Dev) :
    (hdmi_writel v r s).hdmi_cec_data = s.hdmi_cec_data := rfl

@[simp] theorem hdmi_writel_head (v : Nat) (r : Reg) (s : Dev) :
    (hdmi_writel v r s).head = s.head := rfl

@[simp] theorem hdmi_writel_open_count (v : Nat) (r : Reg) (s : Dev) :
    (hdmi_writel v r s).open_count = s.open_count := rfl

@[simp] theorem hdmi_writel_port (v : Nat) (r : Reg) (s : Dev) :
    (hdmi_writel v r s).port = s.port ++ [PortOp.writel (v % 4294967296) r] := rfl

@[simp] theorem hdmi_writeb_data (v : Nat) (r : Reg) (s : Dev) :
    (hdmi_writeb v r s).hdmi_cec_data = s.hdmi_cec_data := rfl

@[simp] theorem hdmi_writeb_head (v : Nat) (r : Reg) (s : Dev) :
    (hdmi_writeb v r s).head = s.head := rfl

@[simp] theorem hdmi_writeb_open_count (v : Nat) (r : Reg) (s : Dev) :
    (hdmi_writeb v r s).open_count = s.open_count := rfl

@[simp] theorem hdmi_writeb_port (v : Nat) (r : Reg) (s : Dev) :
    (hdmi_writeb v r s).port = s.port ++ [PortOp.writeb (v % 256) r] := rfl

@[simp] theorem hdmi_readb_data (r : Reg) (s : Dev) :
    (hdmi_readb r s).2.hdmi_cec_data = s.hdmi_cec_data := rfl

@[simp] theorem hdmi_readb_head (r : Reg) (s : Dev) : (hdmi_readb r s).2.head = s.head := rfl

@[simp] theorem hdmi_readb_open_count (r : Reg) (s : Dev) :
    (hdmi_readb r s).2.open_count = s.open_count := rfl

@[simp] theorem send_frame_data (s : Dev) : (send_frame s).hdmi_cec_data = s.hdmi_cec_data := rfl

@[simp] theorem send_frame_head (s : Dev) : (send_frame s).head = s.head := rfl

@[simp] theorem send_frame_open_count (s : Dev) : (send_frame s).open_count = s.open_count := rfl

theorem send_frame_port (s : Dev) :
    (send_frame s).port = s.port ++ [PortOp.writel 0x54524545 (Reg.raw 0x10010),
      PortOp.writeb (Nat.lor (s.hw Reg.HDMI_CEC_CTRL % 256) 0x01 % 256) Reg.HDMI_CEC_CTRL] := by
  simp [send_frame, hdmi_readb, hdmi_writel, hdmi_writeb]

@[simp] theorem set_hdmi_cec_phy_data (v : Nat) (s : Dev) :
    (set_hdmi_cec_phy v s).hdmi_cec_data = s.hdmi_cec_data := rfl

@[simp] theorem set_hdmi_cec_phy_head (v : Nat) (s : Dev) :
    (set_hdmi_cec_phy v s).head = s.head := rfl

@[simp] theorem set_hdmi_cec_phy_open_count (v : Nat) (s : Dev) :
    (set_hdmi_cec_phy v s).open_count = s.open_count := rfl

theorem tx_loop_data (msg : List Nat) (l : List Nat) (s : Dev) :
    (l.foldl (tx_byte msg) s).hdmi_cec_data = s.hdmi_cec_data := by
  induction l generalizing s with
  | nil => rfl
  | cons i l ih => simp [List.foldl_cons, ih, tx_byte]

/-! ## Staging -/

/-- On an attached, started, idle session with a free line, a count of at
most 17 whose bytes can be copied reaches the wait, with the marker in
progress and the retry counter reset. -/
theorem stage_waiting (s : Dev) (n : Nat) (buf : List Nat) (now : Int)
    (hopen : s.open_count ≠ 0) (hstate : s.hdmi_cec_data.cec_state = true)
    (hidle : s.hdmi_cec_data.tx_answer = CEC_TX_AVAIL) (hn : n ≤ MAX_MESSAGE_LEN)
    (hbuf : n ≤ buf.length) (hfree : ¬ line_busy s now) :
    hdmi_cec_write_stage s n buf now
        = Staged.waiting n (hdmi_cec_write_stage s n buf now).dev ∧
      (hdmi_cec_write_stage s n buf now).dev.hdmi_cec_data.tx_answer = CEC_TX_INPROGRESS ∧
      (hdmi_cec_write_stage s n buf now).dev.hdmi_cec_data.sent_error = 0 := by
  have hn256 : n % 256 = n := by
    have : n ≤ 17 := hn
    omega
  have hn17 : ¬ (n > MAX_MESSAGE_LEN) := by omega
  have hfree1 : ¬ (now - (s.last_signal_tick : Int) < 5000 ∧ s.last_signal > 0) := hfree
  unfold hdmi_cec_write_stage
  simp only [hopen, hstate, hidle, hn17, copy_from_user, hbuf, hfree1, hn256, if_true, if_false,
    ne_eq, not_true_eq_false, Bool.true_eq_false, Staged.dev, and_self, true_and]
  simp [tx_loop_data]

/-! ## Machine-integer lemmas -/

theorem u32_natCast (d : Nat) : u32 (d : Int) = d % 4294967296 := by
  unfold u32
  omega

theorem u32_neg_one : u32 (-1) = 2 ^ 32 - 1 := by decide

theorem int_and_neg_one (d : Nat) : int_and (-1) (d : Int) = d % 4294967296 := by
  unfold int_and
  rw [u32_neg_one, u32_natCast]
  show (2 ^ 32 - 1) &&& (d % 4294967296) = d % 4294967296
  rw [Nat.and_comm]
  exact Nat.and_pow_two_sub_one_of_lt_two_pow (Nat.mod_lt _ (by norm_num))

/-! ## The transmit gate -/

/-- C1, as the code behaves: on an attached, started, idle session with a
free line, a frame of 1..17 bytes is staged; when the wait then yields 0 and
the outcome slot still holds CEC_TX_INPROGRESS (a timeout), the test
`tx_answer & HDMI_IH_CEC_STAT0_DONE` is taken on the value -1 and succeeds
for every non-zero DONE mask, so `hdmi_cec_write` returns the byte count of
the frame, which is positive and is not -EIO. -/
theorem C1_timeout_returns_byte_count (K : Hdr) (s : Dev) (n : Nat) (buf : List Nat)
    (now : Int) (during : Dev → Dev)
    (hopen : s.open_count ≠ 0) (hstate : s.hdmi_cec_data.cec_state = true)
    (hidle : s.hdmi_cec_data.tx_answer = CEC_TX_AVAIL)
    (hn1 : 1 ≤ n) (hn : n ≤ MAX_MESSAGE_LEN) (hbuf : n ≤ buf.length)
    (hfree : ¬ line_busy s now)
    (hdone : K.HDMI_IH_CEC_STAT0_DONE % 4294967296 ≠ 0)
    (hpend : (during (hdmi_cec_write_stage s n buf now).dev).hdmi_cec_data.tx_answer
      = CEC_TX_INPROGRESS) :
    (hdmi_cec_write K s n buf now during 0).1 = (n : Int) ∧
      0 < (hdmi_cec_write K s n buf now during 0).1 ∧
      (hdmi_cec_write K s n buf now during 0).1 ≠ - EIO := by
  obtain ⟨hst, -, -⟩ := stage_waiting s n buf now hopen hstate hidle hn hbuf hfree
  have hres : (hdmi_cec_write K s n buf now during 0).1 = (n : Int) := by
    unfold hdmi_cec_write
    rw [hst]
    simp only [hdmi_cec_write_finish, hpend, CEC_TX_INPROGRESS, int_and_neg_one]
    simp [hdone]
  rw [hres]
  refine ⟨rfl, ?_, ?_⟩
  · exact_mod_cast hn1
  · unfold EIO
    omega

/-- Witness for C1: a two-byte frame on the started example session, no
status handled during the wait. -/
theorem C1_timeout_returns_byte_count_witness :
    (hdmi_cec_write dw_hdmi started_dev 2 [0x40, 0x04] 0 id 0).1 = ((2 : Nat) : Int) ∧
      0 < (hdmi_cec_write dw_hdmi started_dev 2 [0x40, 0x04] 0 id 0).1 ∧
      (hdmi_cec_write dw_hdmi started_dev 2 [0x40, 0x04] 0 id 0).1 ≠ - EIO :=
  C1_timeout_returns_byte_count dw_hdmi started_dev 2 [0x40, 0x04] 0 id
    (by decide) (by decide) (by decide) (by decide) (by decide) (by decide) (by decide)
    (by decide) (by decide)

/-- C2: on an attached, started, idle session with a free line, a frame of
n bytes (1..17) is staged with the marker in progress; when `hdmi_cec_handle`
then runs with a status whose transmit-done bit is set, it records that
status in `tx_answer`, and the write, its wait not ended by a signal,
returns n and leaves the marker at CEC_TX_AVAIL. -/
theorem C2_done_returns_length (K : Hdr) (s : Dev) (n : Nat) (buf : List Nat) (now : Int)
    (alloc_ok : Bool) (cec_stat : Nat) (ret : Int)
    (hopen : s.open_count ≠ 0) (hstate : s.hdmi_cec_data.cec_state = true)
    (hidle : s.hdmi_cec_data.tx_answer = CEC_TX_AVAIL)
    (hn1 : 1 ≤ n) (hn : n ≤ MAX_MESSAGE_LEN) (hbuf : n ≤ buf.length)
    (hfree : ¬ line_busy s now)
    (hdone : int_and cec_stat K.HDMI_IH_CEC_STAT0_DONE ≠ 0)
    (hret : 0 ≤ ret) :
    1 ≤ n ∧
      (hdmi_cec_write_stage s n buf now).dev.hdmi_cec_data.tx_answer = CEC_TX_INPROGRESS ∧
      (hdmi_cec_handle K alloc_ok cec_stat
        (hdmi_cec_write_stage s n buf now).dev).hdmi_cec_data.tx_answer = (cec_stat : Int) ∧
      (hdmi_cec_write K s n buf now (hdmi_cec_handle K alloc_ok cec_stat) ret).1 = (n : Int) ∧
      (hdmi_cec_write K s n buf now
        (hdmi_cec_handle K alloc_ok cec_stat) ret).2.hdmi_cec_data.tx_answer = CEC_TX_AVAIL := by
  obtain ⟨hst, hprog, -⟩ := stage_waiting s n buf now hopen hstate hidle hn hbuf hfree
  have hrec : (hdmi_cec_handle K alloc_ok cec_stat
      (hdmi_cec_write_stage s n buf now).dev).hdmi_cec_data.tx_answer = (cec_stat : Int) := by
    unfold hdmi_cec_handle
    simp [hdone, hprog, set_hdmi_enable_receiving]
  refine ⟨hn1, hprog, hrec, ?_, ?_⟩
  · unfold hdmi_cec_write
    rw [hst]
    have hnn : ¬ ret < 0 := by omega
    simp [hdmi_cec_write_finish, hrec, hdone, hnn]
  · unfold hdmi_cec_write
    rw [hst]
    simp [hdmi_cec_write_finish, tx_out]

/-- Witness for C2: a full 17-byte frame on the started example session, the
status 0x01 handled during the wait. -/
theorem C2_done_returns_length_witness :
    1 ≤ 17 ∧
      (hdmi_cec_write_stage started_dev 17 (List.replicate 17 7) 0).dev.hdmi_cec_data.tx_answer
        = CEC_TX_INPROGRESS ∧
      (hdmi_cec_handle dw_hdmi true 1
        (hdmi_cec_write_stage started_dev 17 (List.replicate 17 7) 0).dev).hdmi_cec_data.tx_answer
        = ((1 : Nat) : Int) ∧
      (hdmi_cec_write dw_hdmi started_dev 17 (List.replicate 17 7) 0
        (hdmi_cec_handle dw_hdmi true 1) 1).1 = ((17 : Nat) : Int) ∧
      (hdmi_cec_write dw_hdmi started_dev 17 (List.replicate 17 7) 0
        (hdmi_cec_handle dw_hdmi true 1) 1).2.hdmi_cec_data.tx_answer = CEC_TX_AVAIL :=
  C2_done_returns_length dw_hdmi started_dev 17 (List.replicate 17 7) 0 true 1 1
    (by decide) (by decide) (by decide) (by decide) (by decide) (by decide) (by decide)
    (by decide) (by decide)

/-! ## Retry policy of the status handler -/

set_option maxRecDepth 100000 in
theorem start_bit_set (y : Nat) : Nat.land (Nat.lor (y % 256) 1 % 256) 1 ≠ 0 := by
  have h : ∀ z : Fin 256, Nat.land (Nat.lor z.val 1 % 256) 1 ≠ 0 := by decide
  exact h ⟨y % 256, Nat.mod_lt _ (by norm_num)⟩

theorem tx_starts_append (p q : List PortOp) : tx_starts (p ++ q) = tx_starts p + tx_starts q := by
  simp [tx_starts, List.filter_append]

theorem tx_starts_retry (s : Dev) :
    tx_starts (send_frame (set_hdmi_enable_sending s)).port = tx_starts s.port + 1 := by
  rw [send_frame_port]
  simp only [set_hdmi_enable_sending, set_hdmi_cec_phy, hdmi_writel_port, tx_starts_append]
  have h := start_bit_set ((hdmi_writel 0 (Reg.raw HDMI_CEC_PHY) s).hw Reg.HDMI_CEC_CTRL)
  simp [tx_starts, PortOp.starts_tx, h]

theorem tx_starts_receiving (s : Dev) :
    tx_starts (set_hdmi_enable_receiving s).port = tx_starts s.port := by
  simp [set_hdmi_enable_receiving, set_hdmi_cec_phy, tx_starts_append, tx_starts,
    PortOp.starts_tx]

/-- The not-acknowledged branch while the counter is below NACK_RETRY_COUNT. -/
theorem handle_nack_retry (K : Hdr) (alloc_ok : Bool) (st : Nat) (s : Dev)
    (hst : isTxNack K st) (hlt : s.hdmi_cec_data.sent_error < NACK_RETRY_COUNT) :
    hdmi_cec_handle K alloc_ok st s = send_frame (set_hdmi_enable_sending
      { s with hdmi_cec_data :=
        { s.hdmi_cec_data with sent_error := s.hdmi_cec_data.sent_error + 1 } }) := by
  obtain ⟨h1, h2, h3, h4⟩ := hst
  unfold hdmi_cec_handle
  simp [h1, h2, h3, h4, hlt]

/-- The not-acknowledged branch once the counter has reached NACK_RETRY_COUNT. -/
theorem handle_nack_final (K : Hdr) (alloc_ok : Bool) (st : Nat) (s : Dev)
    (hst : isTxNack K st) (hge : ¬ s.hdmi_cec_data.sent_error < NACK_RETRY_COUNT)
    (hprog : s.hdmi_cec_data.tx_answer = CEC_TX_INPROGRESS) :
    (hdmi_cec_handle K alloc_ok st s).hdmi_cec_data.tx_answer = (st : Int) ∧
      tx_starts (hdmi_cec_handle K alloc_ok st s).port = tx_starts s.port := by
  obtain ⟨h1, h2, h3, h4⟩ := hst
  unfold hdmi_cec_handle
  simp [h1, h2, h3, h4, hge, hprog, tx_starts_receiving]

/-- The error-on-initiate branch while the counter is below FAIL_RETRY_COUNT. -/
theorem handle_error_retry (K : Hdr) (alloc_ok : Bool) (st : Nat) (s : Dev)
    (hst : isTxError K st) (hlt : s.hdmi_cec_data.sent_error < FAIL_RETRY_COUNT) :
    hdmi_cec_handle K alloc_ok st s = send_frame (set_hdmi_enable_sending
      { s with hdmi_cec_data :=
        { s.hdmi_cec_data with sent_error := s.hdmi_cec_data.sent_error + 1 } }) := by
  obtain ⟨h1, h2, h3⟩ := hst
  unfold hdmi_cec_handle
  simp [h1, h2, h3, hlt]

/-- The error-on-initiate branch once the counter has reached FAIL_RETRY_COUNT. -/
theorem handle_error_final (K : Hdr) (alloc_ok : Bool) (st : Nat) (s : Dev)
    (hst : isTxError K st) (hge : ¬ s.hdmi_cec_data.sent_error < FAIL_RETRY_COUNT)
    (hprog : s.hdmi_cec_data.tx_answer = CEC_TX_INPROGRESS) :
    (hdmi_cec_handle K alloc_ok st s).hdmi_cec_data.tx_answer = (st : Int) ∧
      tx_starts (hdmi_cec_handle K alloc_ok st s).port = tx_starts s.port := by
  obtain ⟨h1, h2, h3⟩ := hst
  unfold hdmi_cec_handle
  simp [h1, h2, h3, hge, hprog, tx_starts_receiving]

/-- What one retry step does to the fields the retry policy reads. -/
theorem retry_effect (s : Dev) :
    let r := send_frame (set_hdmi_enable_sending
      { s with hdmi_cec_data :=
        { s.hdmi_cec_data with sent_error := s.hdmi_cec_data.sent_error + 1 } })
    r.hdmi_cec_data.sent_error = s.hdmi_cec_data.sent_error + 1 ∧
      r.hdmi_cec_data.tx_answer = s.hdmi_cec_data.tx_answer ∧
      tx_starts r.port = tx_starts s.port + 1 := by
  refine ⟨rfl, rfl, ?_⟩
  rw [tx_starts_retry]

/-- A recorded status without the transmit-done bit makes the write fail
with -EIO when its wait was not ended by a signal. -/
theorem finish_eio (K : Hdr) (n : Nat) (ret : Int) (s : Dev) (st : Nat) (hret : 0 ≤ ret)
    (hans : s.hdmi_cec_data.tx_answer = (st : Int))
    (hnd : int_and st K.HDMI_IH_CEC_STAT0_DONE = 0) :
    (hdmi_cec_write_finish K n ret s).1 = - EIO := by
  have hnn : ¬ ret < 0 := by omega
  simp [hdmi_cec_write_finish, hans, hnd, hnn]

/-- Whatever state reaches the wait has the marker in progress and the retry
counter at zero. -/
theorem stage_waiting_inv (s : Dev) (count : Nat) (buf : List Nat) (now : Int) (m : Nat)
    (s1 : Dev) (hst : hdmi_cec_write_stage s count buf now = Staged.waiting m s1) :
    s1.hdmi_cec_data.tx_answer = CEC_TX_INPROGRESS ∧ s1.hdmi_cec_data.sent_error = 0 := by
  unfold hdmi_cec_write_stage at hst
  split_ifs at hst
  · cases hc : copy_from_user buf count <;> simp [hc] at hst
  · cases hc : copy_from_user buf count with
    | none => simp [hc] at hst
    | some bytes =>
      simp only [hc, Staged.waiting.injEq] at hst
      obtain ⟨-, rfl⟩ := hst
      simp [tx_loop_data]

/-- C3: from a freshly staged transmission (the state in which
`hdmi_cec_write` reaches its wait: retry counter 0, marker in progress), fed
with not-acknowledged statuses `hdmi_cec_handle` asserts transmit-start once
more on the first and records the second as the outcome, which makes two
attempts with the one of staging; fed with error-on-initiate statuses it
asserts transmit-start on the first and on the second and records the third,
which makes three attempts.  In both cases the write, its wait not ended by a
signal, returns -EIO. -/
theorem C3_retry_bounds (K : Hdr) (s s1 : Dev) (n m : Nat) (buf : List Nat) (now : Int)
    (alloc_ok : Bool) (k1 k2 e1 e2 e3 : Nat) (ret : Int)
    (hst : hdmi_cec_write_stage s n buf now = Staged.waiting m s1)
    (hk1 : isTxNack K k1) (hk2 : isTxNack K k2)
    (he1 : isTxError K e1) (he2 : isTxError K e2) (he3 : isTxError K e3)
    (hret : 0 ≤ ret) :
    (s1.hdmi_cec_data.sent_error = 0 ∧ s1.hdmi_cec_data.tx_answer = CEC_TX_INPROGRESS) ∧
    (tx_starts (hdmi_cec_handle K alloc_ok k1 s1).port = tx_starts s1.port + 1 ∧
      (hdmi_cec_handle K alloc_ok k1 s1).hdmi_cec_data.tx_answer = CEC_TX_INPROGRESS ∧
      tx_starts (hdmi_cec_handle K alloc_ok k2 (hdmi_cec_handle K alloc_ok k1 s1)).port
        = tx_starts s1.port + 1 ∧
      (hdmi_cec_handle K alloc_ok k2
        (hdmi_cec_handle K alloc_ok k1 s1)).hdmi_cec_data.tx_answer = (k2 : Int) ∧
      (hdmi_cec_write K s n buf now
        (fun x => hdmi_cec_handle K alloc_ok k2 (hdmi_cec_handle K alloc_ok k1 x)) ret).1
        = - EIO) ∧
    (tx_starts (hdmi_cec_handle K alloc_ok e1 s1).port = tx_starts s1.port + 1 ∧
      (hdmi_cec_handle K alloc_ok e1 s1).hdmi_cec_data.tx_answer = CEC_TX_INPROGRESS ∧
      tx_starts (hdmi_cec_handle K alloc_ok e2 (hdmi_cec_handle K alloc_ok e1 s1)).port
        = tx_starts s1.port + 2 ∧
      (hdmi_cec_handle K alloc_ok e2
        (hdmi_cec_handle K alloc_ok e1 s1)).hdmi_cec_data.tx_answer = CEC_TX_INPROGRESS ∧
      tx_starts (hdmi_cec_handle K alloc_ok e3
        (hdmi_cec_handle K alloc_ok e2 (hdmi_cec_handle K alloc_ok e1 s1))).port
        = tx_starts s1.port + 2 ∧
      (hdmi_cec_handle K alloc_ok e3 (hdmi_cec_handle K alloc_ok e2
        (hdmi_cec_handle K alloc_ok e1 s1))).hdmi_cec_data.tx_answer = (e3 : Int) ∧
      (hdmi_cec_write K s n buf now
        (fun x => hdmi_cec_handle K alloc_ok e3 (hdmi_cec_handle K alloc_ok e2
          (hdmi_cec_handle K alloc_ok e1 x))) ret).1 = - EIO) := by
  obtain ⟨hprog, hzero⟩ := stage_waiting_inv s n buf now m s1 hst
  refine ⟨⟨hzero, hprog⟩, ?_, ?_⟩
  · -- not acknowledged
    have ha := handle_nack_retry K alloc_ok k1 s1 hk1 (by rw [hzero]; decide)
    obtain ⟨ra1, ra2, ra3⟩ := retry_effect s1
    rw [← ha] at ra1 ra2 ra3
    rw [hzero] at ra1
    rw [hprog] at ra2
    obtain ⟨fb1, fb2⟩ := handle_nack_final K alloc_ok k2 _ hk2 (by rw [ra1]; decide) ra2
    refine ⟨ra3, ra2, by rw [fb2, ra3], fb1, ?_⟩
    unfold hdmi_cec_write
    rw [hst]
    exact finish_eio K m ret _ k2 hret fb1 hk2.1
  · -- error on initiate
    have ha := handle_error_retry K alloc_ok e1 s1 he1 (by rw [hzero]; decide)
    obtain ⟨ra1, ra2, ra3⟩ := retry_effect s1
    rw [← ha] at ra1 ra2 ra3
    rw [hzero] at ra1
    rw [hprog] at ra2
    have hb := handle_error_retry K alloc_ok e2 _ he2 (by rw [ra1]; decide)
    obtain ⟨rb1, rb2, rb3⟩ := retry_effect (hdmi_cec_handle K alloc_ok e1 s1)
    rw [← hb] at rb1 rb2 rb3
    rw [ra1] at rb1
    rw [ra2] at rb2
    rw [ra3] at rb3
    obtain ⟨fc1, fc2⟩ := handle_error_final K alloc_ok e3 _ he3 (by rw [rb1]; decide) rb2
    refine ⟨ra3, ra2, rb3, rb2, by rw [fc2, rb3], fc1, ?_⟩
    unfold hdmi_cec_write
    rw [hst]
    exact finish_eio K m ret _ e3 hret fc1 he3.1

/-- Witness for C3: the two-byte frame staged on the started example session,
statuses 0x04 (not acknowledged) and 0x10 (error on initiate). -/
theorem C3_retry_bounds_witness :
    (hdmi_cec_write dw_hdmi started_dev 2 [0x40, 0x04] 0
        (fun x => hdmi_cec_handle dw_hdmi true 4 (hdmi_cec_handle dw_hdmi true 4 x)) 1).1
        = - EIO ∧
      tx_starts (hdmi_cec_handle dw_hdmi true 0x10 (hdmi_cec_handle dw_hdmi true 0x10
        (hdmi_cec_handle dw_hdmi true 0x10 staged_dev))).port = tx_starts staged_dev.port + 2 :=
  have h := C3_retry_bounds dw_hdmi started_dev staged_dev 2 2 [0x40, 0x04] 0 true
    4 4 0x10 0x10 0x10 1 rfl (by decide) (by decide) (by decide) (by decide) (by decide)
    (by decide)
  ⟨h.2.1.2.2.2.2, h.2.2.2.2.2.2.1⟩

/-- C4, counterexample: on the started example session a write of zero bytes
is not rejected.  It changes the port history, leaves the marker in progress
while it waits, and returns 0, not -EINVAL. -/
theorem C4_zero_length_not_rejected :
    (hdmi_cec_write dw_hdmi started_dev 0 [] 0 id 0).1 = 0 ∧
      (hdmi_cec_write dw_hdmi started_dev 0 [] 0 id 0).1 ≠ -EINVAL ∧
      (hdmi_cec_write_stage started_dev 0 [] 0).dev.port ≠ started_dev.port ∧
      (hdmi_cec_write_stage started_dev 0 [] 0).dev.hdmi_cec_data.tx_answer
        = CEC_TX_INPROGRESS := by
  decide

/-- C4, amended: on an attached, started, idle session a write of more than
17 bytes returns -EINVAL and changes nothing at all (no port write, marker,
retry counter and last message as before).  A write of zero bytes is not
rejected: on a free line it reaches the wait with the marker in progress,
having written the count 0 and asserted transmit-start. -/
theorem C4_length_check (K : Hdr) (s : Dev) (count : Nat) (buf : List Nat) (now : Int)
    (during : Dev → Dev) (ret : Int)
    (hopen : s.open_count ≠ 0) (hstate : s.hdmi_cec_data.cec_state = true)
    (hidle : s.hdmi_cec_data.tx_answer = CEC_TX_AVAIL) :
    (count > MAX_MESSAGE_LEN →
      hdmi_cec_write K s count buf now during ret = (-EINVAL, s)) ∧
    (¬ line_busy s now →
      hdmi_cec_write_stage s 0 buf now
          = Staged.waiting 0 (hdmi_cec_write_stage s 0 buf now).dev ∧
        (hdmi_cec_write_stage s 0 buf now).dev.hdmi_cec_data.tx_answer = CEC_TX_INPROGRESS ∧
        (hdmi_cec_write_stage s 0 buf now).dev.port = s.port ++
          [PortOp.writel 0x54524545 (Reg.raw 0x10010),
           PortOp.writeb 0 Reg.HDMI_CEC_TX_CNT,
           PortOp.writel 0x54524545 (Reg.raw 0x10010),
           PortOp.writeb (Nat.lor (s.hw Reg.HDMI_CEC_CTRL % 256) 0x01 % 256)
             Reg.HDMI_CEC_CTRL]) := by
  constructor
  · intro hlen
    simp [hdmi_cec_write, hdmi_cec_write_stage, hopen, hstate, hidle, hlen]
  · intro hfree
    obtain ⟨h1, h2, -⟩ := stage_waiting s 0 buf now hopen hstate hidle (by decide)
      (Nat.zero_le _) hfree
    refine ⟨h1, h2, ?_⟩
    have hfree1 : ¬ (now - (s.last_signal_tick : Int) < 5000 ∧ s.last_signal > 0) := hfree
    unfold hdmi_cec_write_stage
    simp only [hopen, hstate, hidle, copy_from_user, hfree1, if_true, if_false,
      ne_eq, not_true_eq_false, Bool.true_eq_false, Staged.dev]
    simp [send_frame_port, hdmi_readb, hdmi_writel, hdmi_writeb, MAX_MESSAGE_LEN]

/-- Witness for C4 amended: 18 bytes on the started example session. -/
theorem C4_length_check_witness :
    hdmi_cec_write dw_hdmi started_dev 18 (List.replicate 18 0) 0 id 0
      = (-EINVAL, started_dev) :=
  (C4_length_check dw_hdmi started_dev 18 (List.replicate 18 0) 0 id 0
    (by decide) (by decide) (by decide)).1 (by decide)

theorem tx_reg_at_ne_ctrl (i : Nat) : tx_reg_at i ≠ Reg.HDMI_CEC_CTRL := by
  by_cases h : i < 16
  · interval_cases i <;> decide
  · have hget : tx_reg.get? i = none := by
      rw [List.get?_eq_none]
      show 16 ≤ i
      omega
    show (tx_reg.get? i).getD (Reg.past_tx_reg i) ≠ Reg.HDMI_CEC_CTRL
    rw [hget]
    simp

theorem tx_starts_writeb_other (v : Nat) (r : Reg) (s : Dev) (h : r ≠ Reg.HDMI_CEC_CTRL) :
    tx_starts (hdmi_writeb v r s).port = tx_starts s.port := by
  rw [hdmi_writeb_port, tx_starts_append]
  cases r <;> first | exact absurd rfl h | rfl

theorem tx_loop_frame (msg : List Nat) (l : List Nat) (s : Dev) :
    tx_starts (l.foldl (tx_byte msg) s).port = tx_starts s.port ∧
      (l.foldl (tx_byte msg) s).last_signal = s.last_signal ∧
      (l.foldl (tx_byte msg) s).last_signal_tick = s.last_signal_tick := by
  induction l generalizing s with
  | nil => exact ⟨rfl, rfl, rfl⟩
  | cons i l ih =>
    simp only [List.foldl_cons]
    obtain ⟨h1, h2, h3⟩ := ih (tx_byte msg s i)
    refine ⟨?_, h2, h3⟩
    rw [h1]
    exact tx_starts_writeb_other _ _ s (tx_reg_at_ne_ctrl i)

theorem tx_starts_send_frame (s : Dev) :
    tx_starts (send_frame s).port = tx_starts s.port + 1 := by
  rw [send_frame_port, tx_starts_append]
  have h := start_bit_set (s.hw Reg.HDMI_CEC_CTRL)
  simp [tx_starts, PortOp.starts_tx, h]

/-- The two critical sections one after the other, with nothing in between,
are the staging step used for a single writer. -/
theorem stage_eq_check_load (s : Dev) (count : Nat) (buf : List Nat) (now : Int) :
    hdmi_cec_write_stage s count buf now
      = match hdmi_cec_write_check s with
        | some r => Staged.returned r s
        | none => hdmi_cec_write_load s count buf now := by
  unfold hdmi_cec_write_stage hdmi_cec_write_check hdmi_cec_write_load
  split_ifs <;> rfl

/-- The second critical section stages whatever the marker says: with a
count of at most 17, bytes that can be copied and a free line it reaches the
wait, sets the marker to in progress and asserts transmit-start once. -/
theorem load_waiting (s : Dev) (n : Nat) (buf : List Nat) (now : Int)
    (hn : n ≤ MAX_MESSAGE_LEN) (hbuf : n ≤ buf.length) (hfree : ¬ line_busy s now) :
    hdmi_cec_write_load s n buf now = Staged.waiting n (hdmi_cec_write_load s n buf now).dev ∧
      (hdmi_cec_write_load s n buf now).dev.hdmi_cec_data.tx_answer = CEC_TX_INPROGRESS ∧
      tx_starts (hdmi_cec_write_load s n buf now).dev.port = tx_starts s.port + 1 ∧
      (hdmi_cec_write_load s n buf now).dev.last_signal = s.last_signal ∧
      (hdmi_cec_write_load s n buf now).dev.last_signal_tick = s.last_signal_tick := by
  have hn256 : n % 256 = n := by
    have : n ≤ 17 := hn
    omega
  have hn17 : ¬ (n > MAX_MESSAGE_LEN) := by omega
  have hfree1 : ¬ (now - (s.last_signal_tick : Int) < 5000 ∧ s.last_signal > 0) := hfree
  unfold hdmi_cec_write_load
  simp only [hn17, copy_from_user, hbuf, hfree1, hn256, if_true, if_false, Staged.dev,
    true_and]
  refine ⟨?_, ?_, ?_, ?_⟩
  · simp [tx_loop_data]
  · show tx_starts (send_frame _).port = _
    rw [tx_starts_send_frame, (tx_loop_frame _ _ _).1, tx_starts_writeb_other _ _ _ (by decide)]
    simp [hdmi_readb, tx_starts_append, tx_starts, PortOp.starts_tx]
  · show (send_frame _).last_signal = _
    simp only [send_frame, hdmi_readb, hdmi_writel, hdmi_writeb]
    exact (tx_loop_frame _ _ _).2.1
  · show (send_frame _).last_signal_tick = _
    simp only [send_frame, hdmi_readb, hdmi_writel, hdmi_writeb]
    exact (tx_loop_frame _ _ _).2.2

/-- C10, the code with two writers: on an attached, started, idle session
with a free line the first critical section of `hdmi_cec_write` lets a
writer pass and leaves the marker at CEC_TX_AVAIL, so a second writer that
runs it before the first one has staged passes as well.  The first writer
then stages its frame and sets the marker to in progress; the second writer,
which does not test the marker again, stages its frame too: it is not
refused with -EBUSY, transmit-start has been asserted twice and two
transmissions are in flight.  Only a writer whose test runs after the first
staging is refused. -/
theorem C10_two_writers_both_stage (s : Dev) (n1 n2 : Nat) (buf1 buf2 : List Nat)
    (now1 now2 : Int)
    (hopen : s.open_count ≠ 0) (hstate : s.hdmi_cec_data.cec_state = true)
    (hidle : s.hdmi_cec_data.tx_answer = CEC_TX_AVAIL)
    (hn1 : n1 ≤ MAX_MESSAGE_LEN) (hn2 : n2 ≤ MAX_MESSAGE_LEN)
    (hbuf1 : n1 ≤ buf1.length) (hbuf2 : n2 ≤ buf2.length)
    (hfree1 : ¬ line_busy s now1) (hfree2 : ¬ line_busy s now2) :
    hdmi_cec_write_check s = none ∧
      hdmi_cec_write_load s n1 buf1 now1
        = Staged.waiting n1 (hdmi_cec_write_load s n1 buf1 now1).dev ∧
      (hdmi_cec_write_load s n1 buf1 now1).dev.hdmi_cec_data.tx_answer = CEC_TX_INPROGRESS ∧
      hdmi_cec_write_load (hdmi_cec_write_load s n1 buf1 now1).dev n2 buf2 now2
        = Staged.waiting n2
            (hdmi_cec_write_load (hdmi_cec_write_load s n1 buf1 now1).dev n2 buf2 now2).dev ∧
      tx_starts
          (hdmi_cec_write_load (hdmi_cec_write_load s n1 buf1 now1).dev n2 buf2 now2).dev.port
        = tx_starts s.port + 2 ∧
      hdmi_cec_write_check (hdmi_cec_write_load s n1 buf1 now1).dev = some (-EBUSY) := by
  obtain ⟨a1, a2, a3, a4, a5⟩ := load_waiting s n1 buf1 now1 hn1 hbuf1 hfree1
  have hfree2a : ¬ line_busy (hdmi_cec_write_load s n1 buf1 now1).dev now2 := by
    unfold line_busy at hfree2 ⊢
    rw [a4, a5]
    exact hfree2
  obtain ⟨b1, -, b3, -, -⟩ :=
    load_waiting (hdmi_cec_write_load s n1 buf1 now1).dev n2 buf2 now2 hn2 hbuf2 hfree2a
  have hopen1 : (hdmi_cec_write_load s n1 buf1 now1).dev.open_count = s.open_count := by
    unfold hdmi_cec_write_load
    have hn17 : ¬ (n1 > MAX_MESSAGE_LEN) := by omega
    have hfree1a : ¬ (now1 - (s.last_signal_tick : Int) < 5000 ∧ s.last_signal > 0) := hfree1
    simp only [hn17, copy_from_user, hbuf1, hfree1a, if_true, if_false, Staged.dev]
    have : ∀ (msg l : List Nat) (d : Dev),
        (l.foldl (tx_byte msg) d).open_count = d.open_count := by
      intro msg l
      induction l with
      | nil => intro d; rfl
      | cons i l ih => intro d; simp only [List.foldl_cons]; rw [ih]; rfl
    simp [this]
  have hstate1 : (hdmi_cec_write_load s n1 buf1 now1).dev.hdmi_cec_data.cec_state = true := by
    unfold hdmi_cec_write_load
    have hn17 : ¬ (n1 > MAX_MESSAGE_LEN) := by omega
    have hfree1a : ¬ (now1 - (s.last_signal_tick : Int) < 5000 ∧ s.last_signal > 0) := hfree1
    simp only [hn17, copy_from_user, hbuf1, hfree1a, if_true, if_false, Staged.dev]
    simp [tx_loop_data, hstate]
  refine ⟨?_, a1, a2, b1, ?_, ?_⟩
  · simp [hdmi_cec_write_check, hopen, hstate, hidle]
  · rw [b3, a3]
  · unfold hdmi_cec_write_check
    rw [if_neg (by rw [hopen1]; exact hopen), if_neg (by rw [hstate1]; decide),
      if_pos (by rw [a2]; decide)]

/-- Witness for C10: two one-byte frames on the started example session. -/
theorem C10_two_writers_both_stage_witness :
    hdmi_cec_write_check started_dev = none ∧
      tx_starts (hdmi_cec_write_load (hdmi_cec_write_load started_dev 1 [0x40] 0).dev
          1 [0x04] 0).dev.port = tx_starts started_dev.port + 2 :=
  have h := C10_two_writers_both_stage started_dev 1 1 [0x40] [0x04] 0 0
    (by decide) (by decide) (by decide) (by decide) (by decide) (by decide) (by decide)
    (by decide) (by decide)
  ⟨h.1, h.2.2.2.2.1⟩

/-! ## Session control -/

/-- C5: on an attached, started session the set-logical-address ioctl with
an address a in 0..15 returns 0, writes the byte 2^a mod 256 to
HDMI_CEC_ADDR_L and then the byte 2^a div 256 to HDMI_CEC_ADDR_H, and leaves
the same two bytes in `cec_l_addr_l` and `cec_l_addr_h`. -/
theorem C5_logical_address_mask (K : Hdr) (s : Dev) (a : Nat) (copy_ok : Bool)
    (ha : a ≤ 15) (hopen : s.open_count ≠ 0) (hstate : s.hdmi_cec_data.cec_state = true) :
    (hdmi_cec_ioctl K IoctlCmd.HDMICEC_IOC_SETLOGICALADDRESS a copy_ok s).1 = 0 ∧
      (hdmi_cec_ioctl K IoctlCmd.HDMICEC_IOC_SETLOGICALADDRESS a copy_ok s).2.port
        = s.port ++ [PortOp.writeb (2 ^ a % 256) Reg.HDMI_CEC_ADDR_L,
                     PortOp.writeb (2 ^ a / 256) Reg.HDMI_CEC_ADDR_H] ∧
      (hdmi_cec_ioctl K IoctlCmd.HDMICEC_IOC_SETLOGICALADDRESS a copy_ok s).2.cec_l_addr_l
        = 2 ^ a % 256 ∧
      (hdmi_cec_ioctl K IoctlCmd.HDMICEC_IOC_SETLOGICALADDRESS a copy_ok s).2.cec_l_addr_h
        = 2 ^ a / 256 := by
  interval_cases a <;>
    simp [hdmi_cec_ioctl, hopen, hstate, hdmi_writeb]

/-- Witness for C5: the addresses 3 and 10 on the started example session
give the bytes 0x08, 0x00 and 0x00, 0x04. -/
theorem C5_logical_address_mask_witness :
    ((hdmi_cec_ioctl dw_hdmi IoctlCmd.HDMICEC_IOC_SETLOGICALADDRESS 3 true started_dev).2.port
        = started_dev.port ++ [PortOp.writeb 0x08 Reg.HDMI_CEC_ADDR_L,
                               PortOp.writeb 0x00 Reg.HDMI_CEC_ADDR_H]) ∧
      ((hdmi_cec_ioctl dw_hdmi IoctlCmd.HDMICEC_IOC_SETLOGICALADDRESS 10 true started_dev).2.port
        = started_dev.port ++ [PortOp.writeb 0x00 Reg.HDMI_CEC_ADDR_L,
                               PortOp.writeb 0x04 Reg.HDMI_CEC_ADDR_H]) :=
  ⟨(C5_logical_address_mask dw_hdmi started_dev 3 true (by decide) (by decide)
      (by decide)).2.1,
   (C5_logical_address_mask dw_hdmi started_dev 10 true (by decide) (by decide)
      (by decide)).2.1⟩

/-- C6, the code at the failing input: on an attached, started session the
set-logical-address ioctl with the argument 256, which is greater than 15,
returns 0 and writes the filter registers, because the range test is made on
the argument narrowed to eight bits. -/
theorem C6_address_256_accepted (K : Hdr) (s : Dev) (copy_ok : Bool)
    (hopen : s.open_count ≠ 0) (hstate : s.hdmi_cec_data.cec_state = true) :
    (hdmi_cec_ioctl K IoctlCmd.HDMICEC_IOC_SETLOGICALADDRESS 256 copy_ok s).1 = 0 ∧
      (hdmi_cec_ioctl K IoctlCmd.HDMICEC_IOC_SETLOGICALADDRESS 256 copy_ok s).1 ≠ -EINVAL ∧
      (hdmi_cec_ioctl K IoctlCmd.HDMICEC_IOC_SETLOGICALADDRESS 256 copy_ok s).2.port
        = s.port ++ [PortOp.writeb 1 Reg.HDMI_CEC_ADDR_L,
                     PortOp.writeb 0 Reg.HDMI_CEC_ADDR_H] := by
  simp [hdmi_cec_ioctl, hopen, hstate, hdmi_writeb, EINVAL]

/-- Witness for C6: the argument 256 on the started example session. -/
theorem C6_address_256_accepted_witness :
    (hdmi_cec_ioctl dw_hdmi IoctlCmd.HDMICEC_IOC_SETLOGICALADDRESS 256 true started_dev).1 = 0 ∧
      (hdmi_cec_ioctl dw_hdmi IoctlCmd.HDMICEC_IOC_SETLOGICALADDRESS 256 true started_dev).1
        ≠ -EINVAL ∧
      (hdmi_cec_ioctl dw_hdmi IoctlCmd.HDMICEC_IOC_SETLOGICALADDRESS 256 true started_dev).2.port
        = started_dev.port ++ [PortOp.writeb 1 Reg.HDMI_CEC_ADDR_L,
                               PortOp.writeb 0 Reg.HDMI_CEC_ADDR_H] :=
  C6_address_256_accepted dw_hdmi started_dev true (by decide) (by decide)

/-! ## Event queue -/

/-- C8, counterexample: with one link event queued on the attached example
session, release followed by open leaves that event in the queue. -/
theorem C8_release_keeps_events :
    (sunxi_hdmi_notify dw_hdmi 0x04 true attached_dev).head ≠ [] ∧
      (hdmi_cec_open (hdmi_cec_release
        (sunxi_hdmi_notify dw_hdmi 0x04 true attached_dev)).2).1 = 0 ∧
      (hdmi_cec_open (hdmi_cec_release
        (sunxi_hdmi_notify dw_hdmi 0x04 true attached_dev)).2).2.head ≠ [] := by
  decide

/-- C8, amended: `hdmi_cec_release` followed by `hdmi_cec_open` leaves the
event queue exactly as it was, so it is empty after the re-attach only when
it was empty before the release. -/
theorem C8_release_open_preserves_queue (s : Dev) :
    (hdmi_cec_open (hdmi_cec_release s).2).2.head = s.head ∧
      ((hdmi_cec_open (hdmi_cec_release s).2).2.head = [] ↔ s.head = []) := by
  have h : (hdmi_cec_open (hdmi_cec_release s).2).2.head = s.head := by
    unfold hdmi_cec_open hdmi_cec_release
    split_ifs <;> simp_all
  exact ⟨h, by rw [h]⟩

theorem poll_in_iff (s : Dev) : Nat.land (hdmi_cec_poll s) POLLIN ≠ 0 ↔ s.head ≠ [] := by
  unfold hdmi_cec_poll
  by_cases h : s.head = []
  · simp only [h, ne_eq, not_true_eq_false, if_false, iff_false, not_not]
    decide
  · simp only [h, ne_eq, not_false_eq_true, if_true, iff_true]
    decide

theorem poll_out (s : Dev) : Nat.land (hdmi_cec_poll s) POLLOUT ≠ 0 := by
  unfold hdmi_cec_poll
  split_ifs <;> decide

/-- C9, counterexample: the attached example session has not been started and
holds one link event.  `hdmi_cec_poll` reports read-readiness, and the
non-blocking `hdmi_cec_read` returns -EACCES and hands over no event. -/
theorem C9_poll_ready_read_refused :
    (sunxi_hdmi_notify dw_hdmi 0x04 true attached_dev).open_count ≠ 0 ∧
      Nat.land (hdmi_cec_poll (sunxi_hdmi_notify dw_hdmi 0x04 true attached_dev)) POLLIN ≠ 0 ∧
      (hdmi_cec_read dw_hdmi true true []
        (sunxi_hdmi_notify dw_hdmi 0x04 true attached_dev)).map ReadOut.ret = some (-EACCES) ∧
      (hdmi_cec_read dw_hdmi true true []
        (sunxi_hdmi_notify dw_hdmi 0x04 true attached_dev)).bind ReadOut.event = none := by
  decide

/-- C9, amended: in every state of an attached session `hdmi_cec_poll`
reports read-readiness exactly when the event queue is not empty, and
write-readiness always.  When the session is started, that is exactly when a
non-blocking `hdmi_cec_read` into a writable buffer returns an event (the
head of the queue, with the size of an event as its value); when the session
is not started such a read returns -EACCES whatever the queue holds. -/
theorem C9_poll_readiness (K : Hdr) (s : Dev) (wakes : List Wake)
    (hopen : s.open_count ≠ 0) :
    (Nat.land (hdmi_cec_poll s) POLLIN ≠ 0 ↔ s.head ≠ []) ∧
      Nat.land (hdmi_cec_poll s) POLLOUT ≠ 0 ∧
      (s.hdmi_cec_data.cec_state = true →
        (Nat.land (hdmi_cec_poll s) POLLIN ≠ 0 ↔
          ∃ out e, hdmi_cec_read K true true wakes s = some out ∧ out.event = some e ∧
            s.head.head? = some e ∧ out.ret = (K.event_size : Int))) ∧
      (s.hdmi_cec_data.cec_state = false →
        hdmi_cec_read K true true wakes s
          = some { ret := -EACCES, event := none, dev := s }) := by
  refine ⟨poll_in_iff s, poll_out s, ?_, ?_⟩
  · intro hstate
    rw [poll_in_iff]
    cases hq : s.head with
    | nil =>
      simp [hdmi_cec_read, hdmi_cec_read_enter, hopen, hstate, hq]
    | cons e rest =>
      simp [hdmi_cec_read, hdmi_cec_read_enter, hdmi_cec_read_take, hopen, hstate, hq]
  · intro hstate
    simp [hdmi_cec_read, hdmi_cec_read_enter, hopen, hstate]

/-- Witness for C9 amended: the attached example session. -/
theorem C9_poll_readiness_witness :
    Nat.land (hdmi_cec_poll attached_dev) POLLOUT ≠ 0 ∧
      hdmi_cec_read dw_hdmi true true [] attached_dev
        = some { ret := -EACCES, event := none, dev := attached_dev } :=
  have h := C9_poll_readiness dw_hdmi attached_dev [] (by decide)
  ⟨h.2.1, h.2.2.2 (by decide)⟩

/-! ## First in, first out -/

theorem rx_loop_head (l : List Nat) (ev : hdmi_cec_event) (s : Dev) :
    (l.foldl rx_byte (ev, s)).2.head = s.head ∧
      (l.foldl rx_byte (ev, s)).2.open_count = s.open_count := by
  induction l generalizing ev s with
  | nil => exact ⟨rfl, rfl⟩
  | cons i l ih =>
    simp only [List.foldl_cons]
    obtain ⟨h1, h2⟩ := ih ({ ev with msg := ev.msg.set i (hdmi_readb (rx_reg_at i) s).1 })
      (hdmi_readb (rx_reg_at i) s).2
    exact ⟨h1, h2⟩

/-- The event the receive loop builds: the bytes are those of the receive
registers, the other fields are left alone. -/
theorem rx_loop_msg (l : List Nat) (ev : hdmi_cec_event) (s : Dev) :
    (l.foldl rx_byte (ev, s)).1
      = { ev with msg := l.foldl (fun m i => m.set i (s.hw (rx_reg_at i) % 256)) ev.msg } := by
  induction l generalizing ev s with
  | nil => rfl
  | cons i l ih =>
    simp only [List.foldl_cons]
    exact ih ({ ev with msg := ev.msg.set i (hdmi_readb (rx_reg_at i) s).1 })
      (hdmi_readb (rx_reg_at i) s).2

theorem enable_cec_head (K : Hdr) (s : Dev) : (enable_cec K s).head = s.head := by
  simp [enable_cec, set_hdmi_enable_receiving]

theorem hdmi_stop_device_head (K : Hdr) (s : Dev) : (hdmi_stop_device K s).head = s.head := by
  simp [hdmi_stop_device]

/-- The status handler puts at the tail of the queue exactly the events it
builds. -/
theorem handle_emits (K : Hdr) (alloc_ok : Bool) (st : Nat) (s : Dev) :
    (hdmi_cec_handle K alloc_ok st s).head
      = s.head ++ (Producer.handle st alloc_ok).emits K s := by
  obtain ⟨g1, g2⟩ := rx_loop_head (List.range (hdmi_readb Reg.HDMI_CEC_RX_CNT s).1)
    { zero_event with msg_len := (hdmi_readb Reg.HDMI_CEC_RX_CNT s).1,
                      event_type := MESSAGE_TYPE_RECEIVE_SUCCESS }
    (hdmi_readb Reg.HDMI_CEC_RX_CNT s).2
  have g3 := rx_loop_msg (List.range (hdmi_readb Reg.HDMI_CEC_RX_CNT s).1)
    { zero_event with msg_len := (hdmi_readb Reg.HDMI_CEC_RX_CNT s).1,
                      event_type := MESSAGE_TYPE_RECEIVE_SUCCESS }
    (hdmi_readb Reg.HDMI_CEC_RX_CNT s).2
  have hn : (hdmi_readb Reg.HDMI_CEC_RX_CNT s).1 = s.hw Reg.HDMI_CEC_RX_CNT % 256 := rfl
  have hhw : (hdmi_readb Reg.HDMI_CEC_RX_CNT s).2.hw = s.hw := rfl
  by_cases hd : int_and st K.HDMI_IH_CEC_STAT0_DONE = 0
  · by_cases he : int_and st K.HDMI_IH_CEC_STAT0_EOM ≠ 0
    · cases alloc_ok with
      | false => simp [hdmi_cec_handle, Producer.emits, hd, he]
      | true =>
        by_cases hz : s.hw Reg.HDMI_CEC_RX_CNT % 256 = 0
        · simp [hdmi_cec_handle, Producer.emits, hd, he, hn, hz]
        · by_cases ho : s.open_count = 0
          · have ho2 : (List.foldl rx_byte
                ({ zero_event with msg_len := (hdmi_readb Reg.HDMI_CEC_RX_CNT s).1,
                                   event_type := MESSAGE_TYPE_RECEIVE_SUCCESS },
                  (hdmi_readb Reg.HDMI_CEC_RX_CNT s).2)
                (List.range (hdmi_readb Reg.HDMI_CEC_RX_CNT s).1)).2.open_count = 0 := by
              rw [g2]; exact ho
            unfold hdmi_cec_handle
            dsimp only
            rw [if_neg (by simpa using hd), if_pos he, if_pos rfl, if_neg (by rw [hn]; exact hz),
              if_neg (by simpa using ho2)]
            simp [Producer.emits, ho, g1]
          · have ho2 : (hdmi_writeb 0 Reg.HDMI_CEC_LOCK (List.foldl rx_byte
                ({ zero_event with msg_len := (hdmi_readb Reg.HDMI_CEC_RX_CNT s).1,
                                   event_type := MESSAGE_TYPE_RECEIVE_SUCCESS },
                  (hdmi_readb Reg.HDMI_CEC_RX_CNT s).2)
                (List.range (hdmi_readb Reg.HDMI_CEC_RX_CNT s).1)).2).open_count ≠ 0 := by
              rw [hdmi_writeb_open_count, g2]; exact ho
            unfold hdmi_cec_handle
            dsimp only
            rw [if_neg (by simpa using hd), if_pos he, if_pos rfl, if_neg (by rw [hn]; exact hz),
              if_pos ho2]
            show (hdmi_writeb 0 Reg.HDMI_CEC_LOCK (List.foldl rx_byte
                ({ zero_event with msg_len := (hdmi_readb Reg.HDMI_CEC_RX_CNT s).1,
                                   event_type := MESSAGE_TYPE_RECEIVE_SUCCESS },
                  (hdmi_readb Reg.HDMI_CEC_RX_CNT s).2)
                (List.range (hdmi_readb Reg.HDMI_CEC_RX_CNT s).1)).2).head ++
              [(List.foldl rx_byte
                ({ zero_event with msg_len := (hdmi_readb Reg.HDMI_CEC_RX_CNT s).1,
                                   event_type := MESSAGE_TYPE_RECEIVE_SUCCESS },
                  (hdmi_readb Reg.HDMI_CEC_RX_CNT s).2)
                (List.range (hdmi_readb Reg.HDMI_CEC_RX_CNT s).1)).1] = _
            rw [g3, hdmi_writeb_head, g1, hdmi_readb_head, hhw, hn]
            have hemit : (Producer.handle st true).emits K s =
                [{ event_type := MESSAGE_TYPE_RECEIVE_SUCCESS
                   msg_len := (s.hw Reg.HDMI_CEC_RX_CNT % 256 : Nat)
                   msg := rx_msg s.hw (s.hw Reg.HDMI_CEC_RX_CNT % 256) }] := by
              simp only [Producer.emits]
              rw [if_pos ⟨hd, he, trivial, hz, ho⟩]
            rw [hemit]
            rfl
    · have he0 : int_and st K.HDMI_IH_CEC_STAT0_EOM = 0 := by simpa using he
      have hemit : (Producer.handle st alloc_ok).emits K s = [] := by
        simp [Producer.emits, he0]
      rw [hemit, List.append_nil]
      unfold hdmi_cec_handle
      dsimp only
      rw [if_neg (by simpa using hd), if_neg (by simpa using he0)]
      split_ifs <;> rfl
  · have hemit : (Producer.handle st alloc_ok).emits K s = [] := by
      simp [Producer.emits, hd]
    rw [hemit, List.append_nil]
    unfold hdmi_cec_handle
    dsimp only
    rw [if_pos hd]
    split_ifs <;> rfl

/-- The link notifier puts at the tail of the queue exactly the events it
builds. -/
theorem notify_emits (K : Hdr) (code : Nat) (alloc_ok : Bool) (s : Dev) :
    (sunxi_hdmi_notify K code alloc_ok s).head
      = s.head ++ (Producer.notify code alloc_ok).emits K s := by
  unfold sunxi_hdmi_notify Producer.emits
  by_cases ho : s.open_count = 0
  · simp [ho]
  · cases alloc_ok <;> by_cases h0 : code = 0 <;> by_cases h4 : code = 4 <;>
      by_cases h5 : code = 5 <;>
      simp [ho, h0, h4, h5, list_add_tail, enable_cec_head]

theorem producer_emits (K : Hdr) (p : Producer) (s : Dev) :
    (p.run K s).head = s.head ++ p.emits K s := by
  cases p with
  | notify code alloc_ok => exact notify_emits K code alloc_ok s
  | handle cec_stat alloc_ok => exact handle_emits K alloc_ok cec_stat s
  | hardware hw => simp [Producer.run, Producer.emits]

theorem produce_cons (K : Hdr) (p : Producer) (ps : List Producer) (s : Dev) :
    produce K (p :: ps) s = produce K ps (p.run K s) := rfl

theorem produce_append (K : Hdr) (ps qs : List Producer) (s : Dev) :
    produce K (ps ++ qs) s = produce K qs (produce K ps s) := by
  simp [produce, List.foldl_append]

theorem produce_emitted (K : Hdr) (ps : List Producer) (s : Dev) :
    (produce K ps s).head = s.head ++ emitted K ps s := by
  induction ps generalizing s with
  | nil => simp [produce, emitted]
  | cons p ps ih =>
    rw [produce_cons, ih, producer_emits, emitted, List.append_assoc]

theorem ioctl_head (K : Hdr) (cmd : IoctlCmd) (arg : Nat) (copy_ok : Bool) (s : Dev) :
    (hdmi_cec_ioctl K cmd arg copy_ok s).2.head = s.head := by
  unfold hdmi_cec_ioctl
  cases cmd <;> dsimp only <;> split_ifs <;>
    simp [enable_cec_head, hdmi_stop_device_head]

/-- The state in which a sleeping reader stops sleeping is the one the
producer steps of `ran_asleep` lead to. -/
theorem read_wait_ran (K : Hdr) (wakes : List (Option (List Producer))) (s : Dev) :
    (hdmi_cec_read_wait (wakes.map (wake_of K)) s).dev = produce K (ran_asleep K wakes s) s := by
  induction wakes generalizing s with
  | nil => rfl
  | cons w wakes ih =>
    cases w with
    | none => rfl
    | some ps =>
      simp only [List.map_cons, wake_of, hdmi_cec_read_wait, ran_asleep]
      split_ifs with hq
      · rw [ih (produce K ps s), produce_append]
      · simp [Entered.dev]

theorem read_enter_ran (K : Hdr) (nonblock : Bool) (wakes : List (Option (List Producer)))
    (s : Dev) :
    (hdmi_cec_read_enter nonblock (wakes.map (wake_of K)) s).dev
      = produce K (read_ran K nonblock wakes s) s := by
  unfold hdmi_cec_read_enter read_ran
  by_cases ho : s.open_count = 0
  · simp [ho, Entered.dev, produce]
  · by_cases hs : s.hdmi_cec_data.cec_state = false
    · simp [ho, hs, Entered.dev, produce]
    · have hs1 : s.hdmi_cec_data.cec_state = true := by simpa using hs
      by_cases hq : s.head = []
      · cases nonblock with
        | true => simp [ho, hs1, hq, Entered.dev, produce]
        | false =>
          simp only [ho, hs1, hq, if_false, if_true, ne_eq, not_false_eq_true, and_self,
            Bool.true_eq_false, Bool.false_eq_true]
          exact read_wait_ran K wakes s
      · simp [ho, hs1, hq, Entered.dev, produce]

/-- A reader leaves the sleeping loop for `list_first_entry` only with a
list that is not empty. -/
theorem read_wait_ready (ws : List Wake) (s s1 : Dev)
    (h : hdmi_cec_read_wait ws s = Entered.ready s1) : s1.head ≠ [] := by
  induction ws generalizing s with
  | nil => simp [hdmi_cec_read_wait] at h
  | cons w ws ih =>
    cases w with
    | signal => simp [hdmi_cec_read_wait] at h
    | woken during =>
      simp only [hdmi_cec_read_wait] at h
      split_ifs at h with hq
      · exact ih (during s) h
      · simp only [Entered.ready.injEq] at h
        rw [← h]
        exact hq

theorem read_wait_failed (ws : List Wake) (s s1 : Dev) (r : Int)
    (h : hdmi_cec_read_wait ws s = Entered.failed r s1) : r = -ERESTARTSYS := by
  induction ws generalizing s with
  | nil => simp [hdmi_cec_read_wait] at h
  | cons w ws ih =>
    cases w with
    | signal =>
      simp only [hdmi_cec_read_wait, Entered.failed.injEq] at h
      exact h.1.symm
    | woken during =>
      simp only [hdmi_cec_read_wait] at h
      split_ifs at h with hq
      exact ih (during s) h

theorem read_enter_ready (nonblock : Bool) (ws : List Wake) (s s1 : Dev)
    (h : hdmi_cec_read_enter nonblock ws s = Entered.ready s1) : s1.head ≠ [] := by
  unfold hdmi_cec_read_enter at h
  split_ifs at h with h1 h2 h3 h4
  · exact read_wait_ready ws s s1 h
  · simp only [Entered.ready.injEq] at h
    rw [← h]
    exact h3

theorem read_enter_failed (nonblock : Bool) (ws : List Wake) (s s1 : Dev) (r : Int)
    (h : hdmi_cec_read_enter nonblock ws s = Entered.failed r s1) :
    r < 0 ∧ r ≠ -EFAULT := by
  unfold hdmi_cec_read_enter at h
  split_ifs at h with h1 h2 h3 h4
  · simp only [Entered.failed.injEq] at h
    rw [← h.1]; decide
  · simp only [Entered.failed.injEq] at h
    rw [← h.1]; decide
  · simp only [Entered.failed.injEq] at h
    rw [← h.1]; decide
  · rw [read_wait_failed ws s s1 r h]; decide

/-- One entry of a schedule: what its read took, followed by the queue it
leaves, is the queue it found followed by what the producers built; and its
read, when it returned, returned in one of the three lawful ways. -/
theorem step_fifo (K : Hdr) (op : Op) (s : Dev) :
    ((step K op s).reads.map Took.taken).flatten ++ (step K op s).dev.head
        = s.head ++ (step K op s).appended ∧
      ∀ x ∈ (step K op s).reads, Took.lawful K x := by
  cases op with
  | produce p =>
    simp only [step, List.map_nil, List.flatten_nil, List.nil_append, List.not_mem_nil,
      false_implies, implies_true, and_true]
    exact producer_emits K p s
  | ioctl cmd arg copy_ok =>
    simp only [step, List.map_nil, List.flatten_nil, List.nil_append, List.not_mem_nil,
      false_implies, implies_true, and_true, List.append_nil]
    exact ioctl_head K cmd arg copy_ok s
  | read nonblock copy_ok wakes =>
    have happ : (hdmi_cec_read_enter nonblock (wakes.map (wake_of K)) s).dev.head
        = s.head ++ emitted K (read_ran K nonblock wakes s) s := by
      rw [read_enter_ran, produce_emitted]
    cases he : hdmi_cec_read_enter nonblock (wakes.map (wake_of K)) s with
    | failed r s1 =>
      obtain ⟨hneg, hnf⟩ := read_enter_failed nonblock _ s s1 r he
      rw [he] at happ
      simp only [Entered.dev] at happ
      simp only [step, hdmi_cec_read, he, took, if_neg hnf, List.map_cons, List.map_nil,
        List.flatten_cons, List.flatten_nil, List.nil_append, List.mem_singleton, forall_eq]
      exact ⟨happ, Or.inr (Or.inr ⟨rfl, rfl, hneg, hnf⟩)⟩
    | asleep s1 =>
      rw [he] at happ
      simp only [Entered.dev] at happ
      simp only [step, hdmi_cec_read, he, Entered.dev, List.map_nil, List.flatten_nil,
        List.nil_append, List.not_mem_nil, false_implies, implies_true, and_true]
      exact happ
    | ready s1 =>
      have hne := read_enter_ready nonblock _ s s1 he
      rw [he] at happ
      simp only [Entered.dev] at happ
      cases hq : s1.head with
      | nil => exact absurd hq hne
      | cons ev rest =>
        rw [hq] at happ
        cases copy_ok with
        | true =>
          simp only [step, hdmi_cec_read, he, hdmi_cec_read_take, hq, took, Entered.dev,
            if_true, List.map_cons, List.map_nil, List.flatten_cons, List.flatten_nil,
            List.append_nil, List.mem_singleton, forall_eq]
          exact ⟨by simpa using happ, Or.inl ⟨ev, rfl, rfl, rfl⟩⟩
        | false =>
          simp only [step, hdmi_cec_read, he, hdmi_cec_read_take, hq, took, Entered.dev,
            Bool.false_eq_true, if_false, if_true, List.map_cons, List.map_nil,
            List.flatten_cons, List.flatten_nil, List.append_nil, List.mem_singleton, forall_eq,
            List.take_succ_cons, List.take_zero]
          exact ⟨by simpa using happ, Or.inr (Or.inl ⟨ev, rfl, rfl, rfl⟩)⟩

/-- The example schedule with a received frame and a sleeping reader: its
four successful reads return the four events in the order they were built. -/
theorem demo_schedule_in_order :
    (run dw_hdmi demo_ops started_dev).reads.filterMap Took.event
        = (run dw_hdmi demo_ops started_dev).appended ∧
      ((run dw_hdmi demo_ops started_dev).appended.map hdmi_cec_event.event_type
        = [MESSAGE_TYPE_DISCONNECTED, MESSAGE_TYPE_CONNECTED, MESSAGE_TYPE_RECEIVE_SUCCESS,
           MESSAGE_TYPE_CONNECTED]) := by
  decide

/-- C7, counterexample: on the started example session a disconnect and a
connect event are appended, then a read into a faulting buffer and two reads
into a good buffer follow.  The three reads return -EFAULT, the size of an
event, and -EAGAIN; the only event a successful read returns is the connect
event, and the queue is empty at the end: the disconnect event was appended
and is returned by no read. -/
theorem C7_faulting_read_drops_event :
    (run dw_hdmi fault_ops started_dev).appended
        = [{ zero_event with event_type := MESSAGE_TYPE_DISCONNECTED },
           { zero_event with event_type := MESSAGE_TYPE_CONNECTED }] ∧
      (run dw_hdmi fault_ops started_dev).reads.map Took.ret = [-EFAULT, 32, -EAGAIN] ∧
      (run dw_hdmi fault_ops started_dev).reads.filterMap Took.event
        = [{ zero_event with event_type := MESSAGE_TYPE_CONNECTED }] ∧
      (run dw_hdmi fault_ops started_dev).dev.head = [] := by
  decide

/-- C7, amended: the event queue is first in, first out.  Run any schedule
of producer steps (`sunxi_hdmi_notify`, `hdmi_cec_handle`, changes of what
the hardware shows), control calls and calls of `hdmi_cec_read` (blocking or
not, sleeping through further producer steps, into a good or a faulting
buffer) from any state.  The events the reads took off the queue, in the
order of the calls, followed by the events still queued, are the events
queued at the start followed by the events the producers built and passed to
`list_add_tail`, in the order they were passed: each event is taken once, in
the order of arrival.  Every read that returned either succeeded, with the
size of an event as its value, and handed the caller the one event it took;
or returned -EFAULT and dropped the one event it took; or returned another
negative value and took nothing. -/
theorem C7_queue_is_fifo (K : Hdr) (ops : List Op) (s : Dev) :
    ((run K ops s).reads.map Took.taken).flatten ++ (run K ops s).dev.head
        = s.head ++ (run K ops s).appended ∧
      ∀ x ∈ (run K ops s).reads,
        (∃ ev, x.event = some ev ∧ x.taken = [ev] ∧ x.ret = (K.event_size : Int)) ∨
        (∃ ev, x.event = none ∧ x.taken = [ev] ∧ x.ret = -EFAULT) ∨
        (x.event = none ∧ x.taken = [] ∧ x.ret < 0 ∧ x.ret ≠ -EFAULT) := by
  induction ops generalizing s with
  | nil => simp [run]
  | cons op ops ih =>
    obtain ⟨h1, l1⟩ := step_fifo K op s
    obtain ⟨h2, l2⟩ := ih (step K op s).dev
    constructor
    · simp only [run, List.map_append, List.flatten_append]
      rw [List.append_assoc, h2, ← List.append_assoc, h1, List.append_assoc]
    · intro x hx
      simp only [run, List.mem_append] at hx
      rcases hx with hx | hx
      · exact l1 x hx
      · exact l2 x hx

/-! ## The receive branch and the interrupt path -/

theorem lor_eq_zero {a b : Nat} (h : a ||| b = 0) : a = 0 ∧ b = 0 := by
  have hb : ∀ i, (a.testBit i || b.testBit i) = false := by
    intro i
    rw [← Nat.testBit_or, h, Nat.zero_testBit]
  constructor <;> apply Nat.eq_of_testBit_eq <;> intro i <;> have := hb i <;>
    simp_all

theorem lor_mod (a b : Nat) :
    (a ||| b) % 4294967296 = a % 4294967296 ||| b % 4294967296 := by
  apply Nat.eq_of_testBit_eq
  intro i
  have h : (4294967296 : Nat) = 2 ^ 32 := by norm_num
  simp only [h, Nat.testBit_mod_two_pow, Nat.testBit_or]
  cases decide (i < 32) <;> simp

/-- The mask test of an `int` against an or of masks is the or of the tests. -/
theorem int_and_lor (x : Int) (a b : Nat) :
    int_and x ((Nat.lor a b : Nat) : Int) = int_and x a ||| int_and x b := by
  unfold int_and
  rw [u32_natCast, u32_natCast, u32_natCast]
  show u32 x &&& ((a ||| b) % 4294967296) = _
  rw [lor_mod, Nat.and_or_distrib_left]
  rfl

theorem int_and_lor_ne_zero (x : Int) (a b : Nat)
    (h : int_and x ((Nat.lor a b : Nat) : Int) ≠ 0) : int_and x a ≠ 0 ∨ int_and x b ≠ 0 := by
  by_contra hc
  push_neg at hc
  apply h
  rw [int_and_lor, hc.1, hc.2]
  rfl

theorem rx_loop_event (l : List Nat) (ev : hdmi_cec_event) (s : Dev) :
    (l.foldl rx_byte (ev, s)).1.msg_len = ev.msg_len ∧
      (l.foldl rx_byte (ev, s)).1.event_type = ev.event_type ∧
      (l.foldl rx_byte (ev, s)).1.msg.length = ev.msg.length ∧
      (l.foldl rx_byte (ev, s)).2.hdmi_cec_data = s.hdmi_cec_data := by
  induction l generalizing ev s with
  | nil => exact ⟨rfl, rfl, rfl, rfl⟩
  | cons i l ih =>
    simp only [List.foldl_cons]
    obtain ⟨h1, h2, h3, h4⟩ := ih ({ ev with msg := ev.msg.set i (hdmi_readb (rx_reg_at i) s).1 })
      (hdmi_readb (rx_reg_at i) s).2
    refine ⟨h1, h2, ?_, h4⟩
    rw [show rx_byte (ev, s) i = ({ ev with msg := ev.msg.set i (hdmi_readb (rx_reg_at i) s).1 },
      (hdmi_readb (rx_reg_at i) s).2) from rfl, h3]
    simp

/-- A status with one of the four bits tested first leaves `receive_error`
as it is. -/
theorem handle_receive_error (K : Hdr) (alloc_ok : Bool) (st : Nat) (s : Dev)
    (h : int_and st K.HDMI_IH_CEC_STAT0_DONE ≠ 0 ∨ int_and st K.HDMI_IH_CEC_STAT0_EOM ≠ 0 ∨
      int_and st K.HDMI_IH_CEC_STAT0_ERROR_INIT ≠ 0 ∨ int_and st K.HDMI_IH_CEC_STAT0_NACK ≠ 0) :
    (hdmi_cec_handle K alloc_ok st s).hdmi_cec_data.receive_error
      = s.hdmi_cec_data.receive_error := by
  obtain ⟨-, -, -, h4⟩ := rx_loop_event (List.range (hdmi_readb Reg.HDMI_CEC_RX_CNT s).1)
    { zero_event with msg_len := (hdmi_readb Reg.HDMI_CEC_RX_CNT s).1,
                      event_type := MESSAGE_TYPE_RECEIVE_SUCCESS }
    (hdmi_readb Reg.HDMI_CEC_RX_CNT s).2
  unfold hdmi_cec_handle
  dsimp only
  split_ifs
  all_goals first
    | rfl
    | (exfalso; tauto)
    | (simp only [list_add_tail, hdmi_writeb_data, h4, hdmi_readb_data])

/-- What `hdmi_cec_isr` does, by the status byte it reads: nothing is stored
and nothing scheduled when none of the four bits is set, otherwise the byte
is stored and the work item scheduled. -/
theorem isr_cases (K : Hdr) (s : Dev) :
    ((hdmi_cec_isr K s).2 = false ∧
        (hdmi_cec_isr K s).1.hdmi_cec_data = s.hdmi_cec_data) ∨
      ((hdmi_cec_isr K s).2 = true ∧
        (hdmi_cec_isr K s).1.hdmi_cec_data
          = { s.hdmi_cec_data with latest_cec_stat := (s.hw Reg.HDMI_IH_CEC_STAT0 % 256 : Nat) } ∧
        int_and (s.hw Reg.HDMI_IH_CEC_STAT0 % 256 : Nat)
          ((Nat.lor (Nat.lor (Nat.lor K.HDMI_IH_CEC_STAT0_ERROR_INIT K.HDMI_IH_CEC_STAT0_NACK)
            K.HDMI_IH_CEC_STAT0_EOM) K.HDMI_IH_CEC_STAT0_DONE : Nat) : Int) ≠ 0) := by
  unfold hdmi_cec_isr
  simp only [hdmi_readb, hdmi_writel, hdmi_writeb]
  split_ifs with h
  · exact Or.inl ⟨rfl, rfl⟩
  · exact Or.inr ⟨rfl, rfl, h⟩

/-- C15: whenever `hdmi_cec_isr` stores a status and schedules the work item,
the status handed to `hdmi_cec_handle` by `hdmi_cec_worker` has one of the
transmit-done, end-of-message, error-on-initiate and not-acknowledged bits,
so the handler takes one of its first four branches, and the dispatcher
followed by the worker leaves `receive_error` as it was. -/
theorem C15_follower_branch_unreachable (K : Hdr) (s : Dev) (alloc_ok : Bool)
    (hsched : (hdmi_cec_isr K s).2 = true) :
    (int_and ((u32 (hdmi_cec_isr K s).1.hdmi_cec_data.latest_cec_stat % 65536 : Nat) : Int)
          K.HDMI_IH_CEC_STAT0_DONE ≠ 0 ∨
        int_and ((u32 (hdmi_cec_isr K s).1.hdmi_cec_data.latest_cec_stat % 65536 : Nat) : Int)
          K.HDMI_IH_CEC_STAT0_EOM ≠ 0 ∨
        int_and ((u32 (hdmi_cec_isr K s).1.hdmi_cec_data.latest_cec_stat % 65536 : Nat) : Int)
          K.HDMI_IH_CEC_STAT0_ERROR_INIT ≠ 0 ∨
        int_and ((u32 (hdmi_cec_isr K s).1.hdmi_cec_data.latest_cec_stat % 65536 : Nat) : Int)
          K.HDMI_IH_CEC_STAT0_NACK ≠ 0) ∧
      (hdmi_cec_worker K alloc_ok (hdmi_cec_isr K s).1).hdmi_cec_data.receive_error
        = s.hdmi_cec_data.receive_error := by
  rcases isr_cases K s with ⟨h1, -⟩ | ⟨-, hdata, hbits⟩
  · rw [h1] at hsched
    exact absurd hsched (by decide)
  · have hst : u32 (hdmi_cec_isr K s).1.hdmi_cec_data.latest_cec_stat % 65536
        = s.hw Reg.HDMI_IH_CEC_STAT0 % 256 := by
      rw [hdata]
      show u32 ((s.hw Reg.HDMI_IH_CEC_STAT0 % 256 : Nat) : Int) % 65536 = _
      rw [u32_natCast]
      omega
    have hone : int_and ((s.hw Reg.HDMI_IH_CEC_STAT0 % 256 : Nat) : Int)
          K.HDMI_IH_CEC_STAT0_DONE ≠ 0 ∨
        int_and ((s.hw Reg.HDMI_IH_CEC_STAT0 % 256 : Nat) : Int)
          K.HDMI_IH_CEC_STAT0_EOM ≠ 0 ∨
        int_and ((s.hw Reg.HDMI_IH_CEC_STAT0 % 256 : Nat) : Int)
          K.HDMI_IH_CEC_STAT0_ERROR_INIT ≠ 0 ∨
        int_and ((s.hw Reg.HDMI_IH_CEC_STAT0 % 256 : Nat) : Int)
          K.HDMI_IH_CEC_STAT0_NACK ≠ 0 := by
      rcases int_and_lor_ne_zero _ _ _ hbits with h3 | h3
      · rcases int_and_lor_ne_zero _ _ _ h3 with h2 | h2
        · rcases int_and_lor_ne_zero _ _ _ h2 with h1 | h1
          · exact Or.inr (Or.inr (Or.inl h1))
          · exact Or.inr (Or.inr (Or.inr h1))
        · exact Or.inr (Or.inl h2)
      · exact Or.inl h3
    rw [hst]
    refine ⟨hone, ?_⟩
    unfold hdmi_cec_worker
    simp only [hdmi_writeb_data, hst]
    rw [handle_receive_error K alloc_ok _ _ hone, hdata]

/-- Witness for C15: the started example session with the not-acknowledged
bit in the interrupt status register. -/
theorem C15_follower_branch_unreachable_witness :
    (hdmi_cec_worker dw_hdmi true
        (hdmi_cec_isr dw_hdmi { started_dev with hw := hw_stat_nack }).1).hdmi_cec_data.receive_error
      = ({ started_dev with hw := hw_stat_nack } : Dev).hdmi_cec_data.receive_error :=
  (C15_follower_branch_unreachable dw_hdmi { started_dev with hw := hw_stat_nack } true
    (by decide)).2

/-- C11, the code at a count above 17: on an attached session, with memory
for the event, a status that takes the end-of-message branch while the count
register shows n > 17 makes `hdmi_cec_handle` put one event at the tail of
the queue whose `msg_len` is n, although its `msg` array has 17 bytes. -/
theorem C11_long_count_enqueued (K : Hdr) (s : Dev) (st : Nat)
    (hopen : s.open_count ≠ 0)
    (hnd : int_and st K.HDMI_IH_CEC_STAT0_DONE = 0)
    (heom : int_and st K.HDMI_IH_CEC_STAT0_EOM ≠ 0)
    (hlong : 17 < s.hw Reg.HDMI_CEC_RX_CNT % 256) :
    ∃ e, (hdmi_cec_handle K true st s).head = s.head ++ [e] ∧
      e.event_type = MESSAGE_TYPE_RECEIVE_SUCCESS ∧
      e.msg_len = ((s.hw Reg.HDMI_CEC_RX_CNT % 256 : Nat) : Int) ∧
      (17 : Int) < e.msg_len ∧ e.msg.length = 17 := by
  have hn : (hdmi_readb Reg.HDMI_CEC_RX_CNT s).1 = s.hw Reg.HDMI_CEC_RX_CNT % 256 := rfl
  obtain ⟨h1, h2, h3, -⟩ := rx_loop_event (List.range (hdmi_readb Reg.HDMI_CEC_RX_CNT s).1)
    { zero_event with msg_len := (hdmi_readb Reg.HDMI_CEC_RX_CNT s).1,
                      event_type := MESSAGE_TYPE_RECEIVE_SUCCESS }
    (hdmi_readb Reg.HDMI_CEC_RX_CNT s).2
  obtain ⟨g1, g2⟩ := rx_loop_head (List.range (hdmi_readb Reg.HDMI_CEC_RX_CNT s).1)
    { zero_event with msg_len := (hdmi_readb Reg.HDMI_CEC_RX_CNT s).1,
                      event_type := MESSAGE_TYPE_RECEIVE_SUCCESS }
    (hdmi_readb Reg.HDMI_CEC_RX_CNT s).2
  have hne : ¬ (hdmi_readb Reg.HDMI_CEC_RX_CNT s).1 = 0 := by rw [hn]; omega
  refine ⟨_, ?_, h2, ?_, ?_, ?_⟩
  · unfold hdmi_cec_handle
    dsimp only
    rw [if_neg (by simpa using hnd), if_pos heom, if_pos rfl, if_neg hne,
      if_pos (by simpa [g2] using hopen)]
    simp only [list_add_tail, hdmi_writeb_head, g1, hdmi_readb_head]
  · rw [h1, hn]
  · rw [h1, hn]
    show (17 : Int) < ((s.hw Reg.HDMI_CEC_RX_CNT % 256 : Nat) : Int)
    exact_mod_cast hlong
  · rw [h3]
    rfl

/-- Witness for C11: the started example session, the count register showing
18, the status 0x02. -/
theorem C11_long_count_enqueued_witness :
    ∃ e, (hdmi_cec_handle dw_hdmi true 0x02 { started_dev with hw := hw_rx18 }).head
        = ({ started_dev with hw := hw_rx18 } : Dev).head ++ [e] ∧
      e.event_type = MESSAGE_TYPE_RECEIVE_SUCCESS ∧
      e.msg_len = ((hw_rx18 Reg.HDMI_CEC_RX_CNT % 256 : Nat) : Int) ∧
      (17 : Int) < e.msg_len ∧ e.msg.length = 17 :=
  C11_long_count_enqueued dw_hdmi { started_dev with hw := hw_rx18 } 0x02
    (by decide) (by decide) (by decide) (by decide)

/-- C14, the code at a count of 17: the table `tx_reg` has 16 entries, so the
index 16 is not a valid index, yet `hdmi_cec_write` accepts 17 bytes on the
started example session and stages byte 16 (here 0x20) through `tx_reg[16]`,
the word past the end of the table, while byte 15 (0x1f) is the last one to
reach a transmit data register. -/
theorem C14_index_16_past_table :
    tx_reg.length = 16 ∧ ¬ (16 < tx_reg.length) ∧
      (17 ≤ MAX_MESSAGE_LEN ∧
        hdmi_cec_write_stage started_dev 17 ((List.range 17).map (fun i => 0x10 + i)) 0
          = Staged.waiting 17
              (hdmi_cec_write_stage started_dev 17
                ((List.range 17).map (fun i => 0x10 + i)) 0).dev) ∧
      PortOp.writeb 0x1f (Reg.HDMI_CEC_TX_DATA 15) ∈
        (hdmi_cec_write_stage started_dev 17
          ((List.range 17).map (fun i => 0x10 + i)) 0).dev.port ∧
      PortOp.writeb 0x20 (Reg.past_tx_reg 16) ∈
        (hdmi_cec_write_stage started_dev 17
          ((List.range 17).map (fun i => 0x10 + i)) 0).dev.port := by
  refine ⟨rfl, by decide, ⟨by decide, rfl⟩, by decide, by decide⟩

/-- C12, counterexample: on the example session sleeping in a write, a
not-acknowledged status that follows one error-on-initiate status is not
retried, it is recorded as the outcome; and after one not-acknowledged
status only one error-on-initiate status is retried, the second is recorded
as the outcome. -/
theorem C12_classes_share_counter :
    ((hdmi_cec_handle dw_hdmi true 0x04
          (hdmi_cec_handle dw_hdmi true 0x10 staged_dev)).hdmi_cec_data.tx_answer = 0x04 ∧
      tx_starts (hdmi_cec_handle dw_hdmi true 0x04
          (hdmi_cec_handle dw_hdmi true 0x10 staged_dev)).port
        = tx_starts (hdmi_cec_handle dw_hdmi true 0x10 staged_dev).port) ∧
    ((hdmi_cec_handle dw_hdmi true 0x10 (hdmi_cec_handle dw_hdmi true 0x10
          (hdmi_cec_handle dw_hdmi true 0x04 staged_dev))).hdmi_cec_data.tx_answer = 0x10 ∧
      tx_starts (hdmi_cec_handle dw_hdmi true 0x10 (hdmi_cec_handle dw_hdmi true 0x10
          (hdmi_cec_handle dw_hdmi true 0x04 staged_dev))).port
        = tx_starts staged_dev.port + 2) := by
  decide

theorem handle_nack_counter (K : Hdr) (alloc_ok : Bool) (st : Nat) (s : Dev)
    (hst : isTxNack K st) :
    (hdmi_cec_handle K alloc_ok st s).hdmi_cec_data.sent_error
      = s.hdmi_cec_data.sent_error + 1 := by
  obtain ⟨h1, h2, h3, h4⟩ := hst
  unfold hdmi_cec_handle
  simp only [h1, h2, h3, h4, ne_eq, not_true_eq_false, not_false_eq_true, if_true, if_false]
  split_ifs <;> rfl

theorem handle_error_counter (K : Hdr) (alloc_ok : Bool) (st : Nat) (s : Dev)
    (hst : isTxError K st) :
    (hdmi_cec_handle K alloc_ok st s).hdmi_cec_data.sent_error
      = s.hdmi_cec_data.sent_error + 1 := by
  obtain ⟨h1, h2, h3⟩ := hst
  unfold hdmi_cec_handle
  simp only [h1, h2, h3, ne_eq, not_true_eq_false, not_false_eq_true, if_true, if_false]
  split_ifs <;> rfl

/-- C12, amended: the two classes share the one counter `sent_error`, reset
at staging and incremented by every not-acknowledged and every
error-on-initiate status.  For a pending transmission a not-acknowledged
status is retried (transmit-start asserted once more, no outcome recorded)
exactly when the counter is below 1, an error-on-initiate status exactly
when it is below 2; otherwise the status is recorded as the outcome and
transmit-start is not asserted. -/
theorem C12_shared_retry_counter (K : Hdr) (alloc_ok : Bool) (st : Nat) (s : Dev)
    (hprog : s.hdmi_cec_data.tx_answer = CEC_TX_INPROGRESS) :
    (isTxNack K st →
      (hdmi_cec_handle K alloc_ok st s).hdmi_cec_data.sent_error
          = s.hdmi_cec_data.sent_error + 1 ∧
        (s.hdmi_cec_data.sent_error < NACK_RETRY_COUNT →
          tx_starts (hdmi_cec_handle K alloc_ok st s).port = tx_starts s.port + 1 ∧
            (hdmi_cec_handle K alloc_ok st s).hdmi_cec_data.tx_answer = CEC_TX_INPROGRESS) ∧
        (¬ s.hdmi_cec_data.sent_error < NACK_RETRY_COUNT →
          tx_starts (hdmi_cec_handle K alloc_ok st s).port = tx_starts s.port ∧
            (hdmi_cec_handle K alloc_ok st s).hdmi_cec_data.tx_answer = (st : Int))) ∧
    (isTxError K st →
      (hdmi_cec_handle K alloc_ok st s).hdmi_cec_data.sent_error
          = s.hdmi_cec_data.sent_error + 1 ∧
        (s.hdmi_cec_data.sent_error < FAIL_RETRY_COUNT →
          tx_starts (hdmi_cec_handle K alloc_ok st s).port = tx_starts s.port + 1 ∧
            (hdmi_cec_handle K alloc_ok st s).hdmi_cec_data.tx_answer = CEC_TX_INPROGRESS) ∧
        (¬ s.hdmi_cec_data.sent_error < FAIL_RETRY_COUNT →
          tx_starts (hdmi_cec_handle K alloc_ok st s).port = tx_starts s.port ∧
            (hdmi_cec_handle K alloc_ok st s).hdmi_cec_data.tx_answer = (st : Int))) := by
  constructor
  · intro hk
    refine ⟨handle_nack_counter K alloc_ok st s hk, ?_, ?_⟩
    · intro hlt
      rw [handle_nack_retry K alloc_ok st s hk hlt]
      obtain ⟨-, r2, r3⟩ := retry_effect s
      exact ⟨r3, by rw [r2, hprog]⟩
    · intro hge
      obtain ⟨f1, f2⟩ := handle_nack_final K alloc_ok st s hk hge hprog
      exact ⟨f2, f1⟩
  · intro he
    refine ⟨handle_error_counter K alloc_ok st s he, ?_, ?_⟩
    · intro hlt
      rw [handle_error_retry K alloc_ok st s he hlt]
      obtain ⟨-, r2, r3⟩ := retry_effect s
      exact ⟨r3, by rw [r2, hprog]⟩
    · intro hge
      obtain ⟨f1, f2⟩ := handle_error_final K alloc_ok st s he hge hprog
      exact ⟨f2, f1⟩

/-- Witness for C12 amended: on the example session sleeping in a write the
first not-acknowledged status is retried, and the counter goes to 1. -/
theorem C12_shared_retry_counter_witness :
    (hdmi_cec_handle dw_hdmi true 0x04 staged_dev).hdmi_cec_data.sent_error
        = staged_dev.hdmi_cec_data.sent_error + 1 ∧
      tx_starts (hdmi_cec_handle dw_hdmi true 0x04 staged_dev).port
        = tx_starts staged_dev.port + 1 :=
  have h := (C12_shared_retry_counter dw_hdmi true 0x04 staged_dev (by decide)).1 (by decide)
  ⟨h.1, (h.2.1 (by decide)).1⟩

/-! ## The bit-timing sampler -/

/-- C13, counterexample: the sampler watches a cycle whose low phase lasts
1000 and whose high phase lasts 2000 microseconds.  Both pass their windows,
their sum 3000 is not below 2750, so the pair is neither a 1 nor a 0, and
`wait_for_bit` returns 0, with only the characters L and H in the trace. -/
theorem C13_unclassified_bit_succeeds :
    (wait_in_state 0 400 1700 slow_bit).map Prod.fst = some 1000 ∧
      (wait_in_state 1 700 2400 (put 'L' slow_bit_high)).map Prod.fst = some 2000 ∧
      ¬ ((1000 : Int) < 800 ∧ (1000 : Int) + 2000 < 2750) ∧
      ¬ ((1000 : Int) < 1700 ∧ (1000 : Int) + 2000 < 2750) ∧
      (wait_for_bit slow_bit).map Prod.fst = some 0 ∧
      (wait_for_bit slow_bit).map (fun x => x.2.buffer) = some ['L', 'H'] := by
  decide

/-- C13, amended: `wait_for_bit` reports success for every pair of phases
that pass the window checks, whether or not the pair classifies as a bit;
the classification (1 when lo < 800 and lo+hi < 2750, else 0 when lo < 1700
and lo+hi < 2750) only selects the character put in the trace buffer.  It
reports failure exactly when the low-phase or the high-phase check fails,
and a pass of the loop of `wait_for_9_bits` aborts exactly when its
`wait_for_bit` reports failure. -/
theorem C13_bit_success_by_windows (r r1 : Rxack) (lo : Int)
    (hlo : wait_in_state 0 400 1700 r = some (lo, r1)) :
    (lo < 0 → wait_for_bit r = some (-1, r1)) ∧
    (0 ≤ lo → ∀ (hi : Int) (r3 : Rxack),
      wait_in_state 1 700 2400 (put 'L' r1) = some (hi, r3) →
        (hi < 0 → wait_for_bit r = some (-1, r3)) ∧
        (0 ≤ hi → wait_for_bit r = some (0,
          if lo < 800 ∧ lo + hi < 2750 then put '1' (put 'H' r3)
          else if lo < 1700 ∧ lo + hi < 2750 then put '0' (put 'H' r3)
          else put 'H' r3))) ∧
    (∀ (i todo : Nat) (q q2 : Rxack) (b : Int),
      wait_for_bit (put (Char.ofNat (48 + i)) (put 'B' q)) = some (b, q2) →
        wait_for_9_bits_from i (todo + 1) q
          = if b < 0 then some (-1, q2)
            else wait_for_9_bits_from (i + 1) todo (put ' ' (put 'A' q2))) := by
  refine ⟨?_, ?_, ?_⟩
  · intro hneg
    simp [wait_for_bit, hlo, hneg]
  · intro hpos hi r3 hhi
    have hnn : ¬ lo < 0 := by omega
    constructor
    · intro hneg
      simp [wait_for_bit, hlo, hnn, hhi, hneg]
    · intro hpos2
      have hnn2 : ¬ hi < 0 := by omega
      simp only [wait_for_bit, hlo, hnn, hhi, hnn2, Option.bind_eq_bind, Option.some_bind,
        if_false, Option.pure_def]
      split_ifs <;> rfl
  · intro i todo q q2 b hb
    simp only [wait_for_9_bits_from, hb, Option.bind_eq_bind, Option.some_bind, Option.pure_def]

/-- Witness for C13 amended: the cycle of `slow_bit`. -/
theorem C13_bit_success_by_windows_witness :
    wait_for_bit slow_bit = some (0,
      if (1000 : Int) < 800 ∧ (1000 : Int) + 2000 < 2750 then put '1' (put 'H' slow_bit_done)
      else if (1000 : Int) < 1700 ∧ (1000 : Int) + 2000 < 2750 then
        put '0' (put 'H' slow_bit_done)
      else put 'H' slow_bit_done) :=
  ((C13_bit_success_by_windows slow_bit slow_bit_high 1000 rfl).2.1 (by decide)
    2000 slow_bit_done rfl).2 (by decide)

end HdmiCec
